import Mathlib

/-!
# Verification of the Monopolista game server core

A shallow embedding of the room/game state machine of `src/server/index.js`
(the most-evolved server variant).  JavaScript objects become Lean structures,
`null`/`undefined` become `Option`, socket identifiers become `String`, money
becomes `Int` (balances may go negative before bankruptcy evaluation) and the
in-place mutation of the single `room` aggregate becomes explicit state
passing.  Dice values, the current time, and the shuffled decks produced by
`shuffleArray` are passed to the handlers as parameters, since they are the
only sources of nondeterminism.  Socket emissions, the append-only log and the
MongoDB persistence bridge carry no game state and are omitted.  A JavaScript
crash (reading a field of `undefined`, or `% 0` producing `NaN` and then an
out-of-range board access) is modelled by an `Option`-valued handler returning
`none`.
-/

set_option maxRecDepth 10000

/-- Tile kinds of the 40-tile board (`BOARD_TILES[i].type`). -/
inductive TileType
  | start
  | property
  | station
  | utility
  | tax
  | chest
  | random
  | jail
  | go_to_jail
  | parking
deriving DecidableEq, Repr

/-- A board tile.  Template fields plus the one mutable field `ownerId`
(`null` = bank).  Display-only fields (`name`, `setSize`) are omitted. -/
structure Tile where
  id : Nat
  type : TileType
  price : Option Int := none
  group : Option String := none
  rentLevels : List Int := []
  rent : Option Int := none
  amount : Option Int := none
  ownerId : Option String := none
deriving DecidableEq, Repr

/-- A player record (`createPlayer`).  `disconnectedAt` is a timestamp. -/
structure Player where
  id : String
  nickname : String
  colorKey : String
  position : Nat
  balance : Int
  properties : List Nat
  isBankrupt : Bool
  inJail : Bool
  jailTurnsLeft : Nat
  isDisconnected : Bool
  disconnectedAt : Option Nat
deriving DecidableEq, Repr

/-- The game-phase enum of a room. -/
inductive Phase
  | awaiting_roll
  | awaiting_jail_choice
  | awaiting_card_ack
  | awaiting_buy
deriving DecidableEq, Repr

/-- Room status. -/
inductive Status
  | waiting
  | playing
deriving DecidableEq, Repr

/-- Card effects (`CHANCE_CARDS` / `COMMUNITY_CARDS` effect variants).  An
absent or unrecognised effect object is modelled as `none` on `Card.effect`
(both take the identical fall-through branch in `applyCardEffectAfterAck`). -/
inductive CardEffect
  | money (amount : Int)
  | moveSteps (steps : Int)
  | goToJail
  | moveTo (tileId : Int)
deriving DecidableEq, Repr

/-- A card.  Display text is omitted. -/
structure Card where
  id : String
  effect : Option CardEffect
deriving DecidableEq, Repr

/-- The two deck kinds. -/
inductive DeckType
  | chance
  | community
deriving DecidableEq, Repr

/-- The nullable pending-action record, discriminated by kind.  The `buy`
record of the source has no `type` tag; kinds are distinguished here by the
constructor, which matches how the source discriminates (`pending.type` is
`undefined` exactly for the buy record, and the buy handler does not test
the tag at all). -/
inductive Pending
  | buy (playerId : String) (tileId : Nat)
  | jail (playerId : String) (fine : Int)
  | card (playerId : String) (deckType : DeckType) (card : Card) (diceSum : Int)
deriving DecidableEq, Repr

/-- The `playerId` field shared by all pending-action records. -/
def Pending.playerId : Pending → String
  | .buy p _ => p
  | .jail p _ => p
  | .card p _ _ _ => p

/-- Rewrite the `playerId` field of a pending record (`rebindPlayerId`). -/
def Pending.withPlayerId : Pending → String → Pending
  | .buy _ t, pid => .buy pid t
  | .jail _ f, pid => .jail pid f
  | .card _ dt c ds, pid => .card pid dt c ds

/-- The room aggregate.  `readyById` is the ready-map object: an association
list from identifier to stored value, where the stored value `none` models a
JavaScript `undefined` written by `rebindPlayerId`.  The bounded log and the
debounced-save timer are omitted (no game state). -/
structure Room where
  hostId : String
  readyById : List (String × Option Bool)
  players : List Player
  status : Status
  currentPlayerIndex : Nat
  board : List Tile
  phase : Phase
  pending : Option Pending
  gameOver : Bool
  winnerId : Option String
  chanceDeck : List Card
  chancePos : Nat
  communityDeck : List Card
  communityPos : Nat
deriving DecidableEq, Repr

/-- Handler acknowledgment: `{ok:true, phase?}` or `{ok:false, error}`. -/
inductive Resp
  | ok (phase : Option Phase)
  | err (code : String)
deriving DecidableEq, Repr

/-- `clamp(n, a, b) = Math.max(a, Math.min(b, n))`; all uses are on
nonnegative counts and bounds. -/
def clamp (n a b : Nat) : Nat := max a (min b n)

/-- `isBuyable`. -/
def isBuyable (t : Tile) : Bool :=
  t.type = TileType.property ∨ t.type = TileType.station ∨ t.type = TileType.utility

def JAIL_TILE_ID : Nat := 10

def JAIL_FINE : Int := 50

/-- Update the element at an index, leaving the list unchanged when the index
is out of range.  Models in-place mutation through an element reference. -/
def updIdx {α : Type} : List α → Nat → (α → α) → List α
  | [], _, _ => []
  | a :: as, 0, f => f a :: as
  | a :: as, n + 1, f => a :: updIdx as n f

/-- Update the first player whose `id` matches, as mutation through the
reference returned by `getPlayerById` does. -/
def updFirstById : List Player → String → (Player → Player) → List Player
  | [], _, _ => []
  | p :: ps, pid, f =>
    if p.id = pid then f p :: ps else p :: updFirstById ps pid f

/-- The index of the first player satisfying a predicate
(`players.findIndex(...)`, with `none` for -1). -/
def findIdxP (pred : Player → Bool) : List Player → Option Nat
  | [] => none
  | p :: ps => if pred p then some 0 else (findIdxP pred ps).map (· + 1)

/-- Ready-map lookup (`room.readyById[k]`): `none` models an absent key. -/
def lookupReady (m : List (String × Option Bool)) (k : String) : Option (Option Bool) :=
  (m.find? fun e => decide (e.1 = k)).map Prod.snd

/-- Ready-map key deletion (`delete room.readyById[k]`). -/
def eraseReady (m : List (String × Option Bool)) (k : String) : List (String × Option Bool) :=
  m.filter fun e => decide (e.1 ≠ k)

/-- Ready-map assignment (`room.readyById[k] = v`). -/
def setReadyKey (m : List (String × Option Bool)) (k : String) (v : Option Bool) :
    List (String × Option Bool) :=
  eraseReady m k ++ [(k, v)]

-- ===== Rent helpers (`countOwnerStations` .. `computeRent`) =====

def countOwnerStations (r : Room) (ownerId : String) : Nat :=
  (r.board.filter fun t =>
    decide (t.type = TileType.station ∧ t.ownerId = some ownerId)).length

def countOwnerUtilities (r : Room) (ownerId : String) : Nat :=
  (r.board.filter fun t =>
    decide (t.type = TileType.utility ∧ t.ownerId = some ownerId)).length

def countOwnerGroupProps (r : Room) (ownerId : String) (group : Option String) : Nat :=
  (r.board.filter fun t =>
    decide (t.type = TileType.property ∧ t.group = group ∧ t.ownerId = some ownerId)).length

/-- `computeRent(room, tile, diceSum)` — the pure rent rule.
`Number(tile.rentLevels[idx] || 0)` is `List.getD _ _ 0`, and
`Number(tile.rent || 25)` is 25 when the field is absent or zero. -/
def computeRent (r : Room) (tile : Tile) (diceSum : Int) : Int :=
  match tile.ownerId with
  | none => 0
  | some ownerId =>
    match tile.type with
    | TileType.property =>
      let ownedInGroup := countOwnerGroupProps r ownerId tile.group
      if tile.rentLevels = [] then 0
      else
        let idx := clamp ownedInGroup 1 tile.rentLevels.length - 1
        tile.rentLevels.getD idx 0
    | TileType.station =>
      let stations := countOwnerStations r ownerId
      let base : Int :=
        match tile.rent with
        | none => 25
        | some v => if v = 0 then 25 else v
      base * (2 : Int) ^ (clamp stations 1 4 - 1)
    | TileType.utility =>
      let utils := countOwnerUtilities r ownerId
      let multiplier : Int := if 2 ≤ utils then 10 else 4
      diceSum * multiplier
    | _ => 0

-- ===== Turn helpers =====

/-- `room.players[i]?.isBankrupt || room.players[i]?.isDisconnected` — the
optional-chain yields `undefined` (falsy) when the index is out of range. -/
def inactiveAt (ps : List Player) (i : Nat) : Bool :=
  match ps[i]? with
  | some p => p.isBankrupt || p.isDisconnected
  | none => false

/-- The skip loop of `ensureCurrentIsActive`, with the remaining tries as
fuel (`triesMax - tries`). -/
def ensureLoop (ps : List Player) (idx : Nat) : Nat → Nat
  | 0 => idx
  | fuel + 1 =>
    if inactiveAt ps idx then ensureLoop ps ((idx + 1) % ps.length) fuel else idx

/-- `ensureCurrentIsActive`. -/
def ensureCurrentIsActive (r : Room) : Room :=
  if r.players.length = 0 then r
  else { r with currentPlayerIndex := ensureLoop r.players r.currentPlayerIndex r.players.length }

/-- `advanceTurn`. -/
def advanceTurn (r : Room) : Room :=
  if r.players.length = 0 then r
  else ensureCurrentIsActive
    { r with currentPlayerIndex := (r.currentPlayerIndex + 1) % r.players.length }

-- ===== Bankruptcy / winner =====

def getPlayerById (r : Room) (playerId : String) : Option Player :=
  r.players.find? fun p => decide (p.id = playerId)

/-- `getActivePlayers` — disconnected players still count as active. -/
def getActivePlayers (r : Room) : List Player :=
  r.players.filter fun p => !p.isBankrupt

def releasePropertiesToBank (r : Room) (playerId : String) : Room :=
  { r with board := r.board.map fun t =>
      if t.ownerId = some playerId then { t with ownerId := none } else t }

/-- `checkWinner`.  `active.length === 1` marks game over, records the winner
and resets phase/pending; otherwise nothing changes. -/
def checkWinner (r : Room) : Room :=
  match getActivePlayers r with
  | [w] =>
    { r with gameOver := true, winnerId := some w.id,
             phase := Phase.awaiting_roll, pending := none }
  | _ => r

/-- The field updates of `handleBankruptcy` on the transitioning player. -/
def bankruptPlayer (p : Player) : Player :=
  { p with isBankrupt := true, balance := 0, properties := [],
           inJail := false, jailTurnsLeft := 0 }

/-- `handleBankruptcy(roomCode, playerId)`: returns whether the transition
fired, together with the updated room. -/
def handleBankruptcy (r : Room) (playerId : String) : Bool × Room :=
  if r.gameOver then (false, r)
  else
    match getPlayerById r playerId with
    | none => (false, r)
    | some pl =>
      if pl.isBankrupt then (false, r)
      else if 0 ≤ pl.balance then (false, r)
      else
        let r1 := { r with players := updFirstById r.players playerId bankruptPlayer }
        let r2 := releasePropertiesToBank r1 pl.id
        let r3 := ensureCurrentIsActive r2
        let r4 := { r3 with phase := Phase.awaiting_roll, pending := none }
        (true, checkWinner r4)

-- ===== Cards / jail =====

/-- `drawCard(room, deckType)`: returns the card at the cursor and advances
the cursor, wrapping the cursor to zero when it has reached the deck length.
The deck array is only read. -/
def drawCard (r : Room) (deckType : DeckType) : Option Card × Room :=
  let isChance := deckType = DeckType.chance
  let deck := if isChance then r.chanceDeck else r.communityDeck
  let pos0 := if isChance then r.chancePos else r.communityPos
  if deck.length = 0 then (none, r)
  else
    let pos := if deck.length ≤ pos0 then 0 else pos0
    let card := deck[pos]?
    if isChance then (card, { r with chancePos := pos + 1 })
    else (card, { r with communityPos := pos + 1 })

/-- `sendToJail(roomCode, room, player)` with the player given by its stable
position `i` in the player list (object references never move in the list). -/
def sendToJail (r : Room) (i : Nat) : Room :=
  { r with players := updIdx r.players i fun p =>
      { p with position := JAIL_TILE_ID, inJail := true, jailTurnsLeft := 1 } }

/-- `maybePromptJail`. -/
def maybePromptJail (r : Room) (i : Nat) : Bool × Room :=
  match r.players[i]? with
  | none => (false, r)
  | some player =>
    if !player.inJail || player.jailTurnsLeft = 0 then (false, r)
    else
      (true, { r with phase := Phase.awaiting_jail_choice,
                      pending := some (Pending.jail player.id JAIL_FINE) })

/-- The phase/endedTurn record returned by `resolveLanding`. -/
structure StepResult where
  phase : Phase
  endedTurn : Bool
deriving DecidableEq, Repr

/-- Final section of `resolveLanding`: unowned-buyable offer, else end the
turn and advance. -/
def landingTail (r : Room) (tile : Tile) (pid : String) : StepResult × Room :=
  if isBuyable tile ∧ tile.ownerId = none ∧ tile.price.isSome then
    (⟨Phase.awaiting_buy, false⟩,
     { r with phase := Phase.awaiting_buy, pending := some (Pending.buy pid tile.id) })
  else
    (⟨Phase.awaiting_roll, true⟩,
     advanceTurn { r with phase := Phase.awaiting_roll, pending := none })

/-- `resolveLanding(roomCode, room, player, diceSum, fromCard)`, the player
given by its list position `i`.  `none` models the crash on an out-of-range
board read.  The source's early `return` points become `Sum.inl`. -/
def resolveLanding (r : Room) (i : Nat) (diceSum : Int) (fromCard : Bool) :
    Option (StepResult × Room) :=
  match r.players[i]? with
  | none => none
  | some p0 =>
    match r.board[p0.position]? with
    | none => none
    | some tile =>
      if tile.type = TileType.go_to_jail then
        some (⟨Phase.awaiting_roll, true⟩,
          checkWinner (advanceTurn
            { sendToJail r i with phase := Phase.awaiting_roll, pending := none }))
      else
        let taxStep : Sum (StepResult × Room) Room :=
          match tile.type, tile.amount with
          | TileType.tax, some taxAmount =>
            let rA := { r with players := updIdx r.players i fun p =>
                          { p with balance := p.balance - taxAmount } }
            let res := handleBankruptcy rA p0.id
            if res.1 then Sum.inl (⟨Phase.awaiting_roll, true⟩, advanceTurn res.2)
            else Sum.inr res.2
          | _, _ => Sum.inr r
        match taxStep with
        | Sum.inl out => some out
        | Sum.inr r1 =>
          let rentStep : Sum (StepResult × Room) Room :=
            match tile.ownerId with
            | some oid =>
              if isBuyable tile ∧ oid ≠ p0.id then
                match getPlayerById r1 oid with
                | some _ =>
                  let rent := computeRent r1 tile diceSum
                  if 0 < rent then
                    let rA := { r1 with players := updIdx r1.players i fun p =>
                                  { p with balance := p.balance - rent } }
                    let rB := { rA with players := updFirstById rA.players oid fun p =>
                                  { p with balance := p.balance + rent } }
                    let res := handleBankruptcy rB p0.id
                    if res.1 then Sum.inl (⟨Phase.awaiting_roll, true⟩, advanceTurn res.2)
                    else Sum.inr res.2
                  else Sum.inr r1
                | none => Sum.inr r1
              else Sum.inr r1
            | none => Sum.inr r1
          match rentStep with
          | Sum.inl out => some out
          | Sum.inr r2 =>
            if !fromCard ∧ (tile.type = TileType.random ∨ tile.type = TileType.chest) then
              let deckType :=
                if tile.type = TileType.random then DeckType.chance else DeckType.community
              let drawn := drawCard r2 deckType
              match drawn.1 with
              | some card =>
                some (⟨Phase.awaiting_card_ack, false⟩,
                  { drawn.2 with
                      phase := Phase.awaiting_card_ack,
                      pending := some (Pending.card p0.id deckType card diceSum) })
              | none => some (landingTail drawn.2 tile p0.id)
            else some (landingTail r2 tile p0.id)

/-- `applyCardEffectAfterAck(roomCode, room, player, pendingCard)`.  The
missing-effect and unknown-effect branches of the source behave identically
and are both the `none` case here. -/
def applyCardEffectAfterAck (r : Room) (i : Nat) (card : Card) (diceSum : Int) :
    Option (StepResult × Room) :=
  match card.effect with
  | none =>
    some (⟨Phase.awaiting_roll, true⟩,
      advanceTurn { r with phase := Phase.awaiting_roll, pending := none })
  | some (CardEffect.money amt) =>
    match r.players[i]? with
    | none => none
    | some p0 =>
      let rA := { r with players := updIdx r.players i fun p =>
                    { p with balance := p.balance + amt } }
      let res := handleBankruptcy rA p0.id
      if res.1 then
        some (⟨Phase.awaiting_roll, true⟩,
          checkWinner (advanceTurn
            { res.2 with phase := Phase.awaiting_roll, pending := none }))
      else
        some (⟨Phase.awaiting_roll, true⟩,
          advanceTurn { res.2 with phase := Phase.awaiting_roll, pending := none })
  | some CardEffect.goToJail =>
    some (⟨Phase.awaiting_roll, true⟩,
      checkWinner (advanceTurn
        { sendToJail r i with phase := Phase.awaiting_roll, pending := none }))
  | some (CardEffect.moveSteps steps) =>
    match r.players[i]? with
    | none => none
    | some _ =>
      let len := r.board.length
      if len = 0 then none
      else
        let r1 :=
          if steps = 0 then r
          else { r with players := updIdx r.players i fun p =>
                   { p with position := (((p.position : Int) + steps) % (len : Int)).toNat } }
        resolveLanding r1 i diceSum true
  | some (CardEffect.moveTo tileId) =>
    match r.players[i]? with
    | none => none
    | some p0 =>
      let len := r.board.length
      if len = 0 then none
      else
        let target : Nat := (tileId % (len : Int)).toNat
        let r1 :=
          if target < p0.position then
            { r with players := updIdx r.players i fun p =>
                { p with balance := p.balance + 200 } }
          else r
        let r2 := { r1 with players := updIdx r1.players i fun p =>
                      { p with position := target } }
        resolveLanding r2 i diceSum true

-- ===== Board base (Warsaw), `BOARD_TILES` =====

def BOARD_TILES : List Tile := [
  { id := 0, type := TileType.start },
  { id := 1, type := TileType.property, price := some 60, group := some "brown",
    rentLevels := [4, 8] },
  { id := 2, type := TileType.chest },
  { id := 3, type := TileType.property, price := some 60, group := some "brown",
    rentLevels := [4, 8] },
  { id := 4, type := TileType.tax, amount := some 200 },
  { id := 5, type := TileType.station, price := some 200, rent := some 25 },
  { id := 6, type := TileType.property, price := some 100, group := some "lightblue",
    rentLevels := [6, 12, 18] },
  { id := 7, type := TileType.random },
  { id := 8, type := TileType.property, price := some 100, group := some "lightblue",
    rentLevels := [6, 12, 18] },
  { id := 9, type := TileType.property, price := some 120, group := some "lightblue",
    rentLevels := [8, 16, 24] },
  { id := 10, type := TileType.jail },
  { id := 11, type := TileType.property, price := some 140, group := some "pink",
    rentLevels := [10, 20, 30] },
  { id := 12, type := TileType.utility, price := some 150 },
  { id := 13, type := TileType.property, price := some 140, group := some "pink",
    rentLevels := [10, 20, 30] },
  { id := 14, type := TileType.property, price := some 160, group := some "pink",
    rentLevels := [12, 24, 36] },
  { id := 15, type := TileType.station, price := some 200, rent := some 25 },
  { id := 16, type := TileType.property, price := some 180, group := some "orange",
    rentLevels := [14, 28, 42] },
  { id := 17, type := TileType.chest },
  { id := 18, type := TileType.property, price := some 180, group := some "orange",
    rentLevels := [14, 28, 42] },
  { id := 19, type := TileType.property, price := some 200, group := some "orange",
    rentLevels := [16, 32, 48] },
  { id := 20, type := TileType.parking },
  { id := 21, type := TileType.property, price := some 220, group := some "red",
    rentLevels := [18, 36, 54] },
  { id := 22, type := TileType.random },
  { id := 23, type := TileType.property, price := some 220, group := some "red",
    rentLevels := [18, 36, 54] },
  { id := 24, type := TileType.property, price := some 240, group := some "red",
    rentLevels := [20, 40, 60] },
  { id := 25, type := TileType.station, price := some 200, rent := some 25 },
  { id := 26, type := TileType.property, price := some 260, group := some "yellow",
    rentLevels := [22, 44, 66] },
  { id := 27, type := TileType.property, price := some 260, group := some "yellow",
    rentLevels := [22, 44, 66] },
  { id := 28, type := TileType.utility, price := some 150 },
  { id := 29, type := TileType.property, price := some 280, group := some "yellow",
    rentLevels := [24, 48, 72] },
  { id := 30, type := TileType.go_to_jail },
  { id := 31, type := TileType.property, price := some 300, group := some "green",
    rentLevels := [26, 52, 78] },
  { id := 32, type := TileType.property, price := some 300, group := some "green",
    rentLevels := [26, 52, 78] },
  { id := 33, type := TileType.chest },
  { id := 34, type := TileType.property, price := some 320, group := some "green",
    rentLevels := [28, 56, 84] },
  { id := 35, type := TileType.station, price := some 200, rent := some 25 },
  { id := 36, type := TileType.random },
  { id := 37, type := TileType.property, price := some 350, group := some "darkblue",
    rentLevels := [35, 70] },
  { id := 38, type := TileType.tax, amount := some 100 },
  { id := 39, type := TileType.property, price := some 400, group := some "darkblue",
    rentLevels := [50, 100] }
]

/-- `createRoomBoard()`: a fresh per-room copy with all tiles bank-owned. -/
def createRoomBoard : List Tile :=
  BOARD_TILES.map fun t => { t with ownerId := none }

def PLAYER_COLORS : List String := ["blue", "yellow", "red", "green"]

/-- `pickNextColor`. -/
def pickNextColor (r : Room) : String :=
  match PLAYER_COLORS.find? (fun c => decide (∀ p ∈ r.players, p.colorKey ≠ c)) with
  | some c => c
  | none => "blue"

/-- `createPlayer(socketId, nickname, colorKey)`. -/
def createPlayer (sid nickname colorKey : String) : Player :=
  { id := sid, nickname := nickname, colorKey := colorKey, position := 0,
    balance := 1500, properties := [], isBankrupt := false, inJail := false,
    jailTurnsLeft := 0, isDisconnected := false, disconnectedAt := none }

/-- `allReady`. -/
def allReady (r : Room) : Bool :=
  if r.players.length < 2 then false
  else r.players.all fun p => decide (lookupReady r.readyById p.id = some (some true))

/-- The per-player reset performed by `startGame` and `resetGame`. -/
def resetPlayer (p : Player) : Player :=
  { p with position := 0, balance := 1500, properties := [], isBankrupt := false,
           inJail := false, jailTurnsLeft := 0, isDisconnected := false,
           disconnectedAt := none }

/-- `rebindPlayerId(room, oldId, newId)`.  The guard mirrors the source's
falsiness test on the two identifiers (empty string or missing). -/
def rebindPlayerId (r : Room) (oldId newId : String) : Room :=
  if oldId = "" ∨ newId = "" then r
  else
    { r with
        players := r.players.map fun p =>
          if p.id = oldId then { p with id := newId } else p,
        hostId := if r.hostId = oldId then newId else r.hostId,
        winnerId := if r.winnerId = some oldId then some newId else r.winnerId,
        readyById :=
          setReadyKey (eraseReady r.readyById oldId) newId
            ((lookupReady r.readyById oldId).join),
        board := r.board.map fun t =>
          if t.ownerId = some oldId then { t with ownerId := some newId } else t,
        pending :=
          match r.pending with
          | some pa =>
            if pa.playerId = oldId then some (pa.withPlayerId newId) else some pa
          | none => none }

-- ===== Socket.IO intent handlers =====

/-- `createRoom` handler body.  The shuffled decks produced by `initDecks`
are parameters. -/
def createRoom (sid nickname : String) (chanceDeck communityDeck : List Card) : Room :=
  let room0 : Room :=
    { hostId := sid, readyById := [(sid, some true)], players := [],
      status := Status.waiting, currentPlayerIndex := 0, board := createRoomBoard,
      phase := Phase.awaiting_roll, pending := none, gameOver := false,
      winnerId := none, chanceDeck := [], chancePos := 0, communityDeck := [],
      communityPos := 0 }
  let colorKey := pickNextColor room0
  { room0 with
      players := [createPlayer sid nickname colorKey],
      chanceDeck := chanceDeck, chancePos := 0,
      communityDeck := communityDeck, communityPos := 0 }

/-- `joinRoom` handler body (rejoin-by-nickname when playing; lobby rules
when waiting).  Mongo rehydration on a miss is outside the room model. -/
def joinRoom (r : Room) (nickname sid : String) : Resp × Room :=
  if r.status ≠ Status.waiting then
    match r.players.find? (fun p => decide (p.nickname = nickname)) with
    | none => (Resp.err "GAME_ALREADY_STARTED", r)
    | some existingByNick =>
      let oldId := existingByNick.id
      let r1 := rebindPlayerId r oldId sid
      let r2 :=
        match findIdxP (fun p => decide (p.id = sid)) r1.players with
        | some j =>
          { r1 with players := updIdx r1.players j fun p =>
              { p with isDisconnected := false, disconnectedAt := none } }
        | none => r1
      (Resp.ok none, r2)
  else
    if 6 ≤ r.players.length then (Resp.err "ROOM_FULL", r)
    else if r.players.any (fun p => decide (p.id = sid)) then (Resp.ok none, r)
    else if r.players.any (fun p => decide (p.nickname = nickname)) then
      (Resp.err "NICKNAME_TAKEN", r)
    else
      let colorKey := pickNextColor r
      (Resp.ok none,
       { r with players := r.players ++ [createPlayer sid nickname colorKey],
                readyById := setReadyKey r.readyById sid (some false) })

/-- `setReady` handler body. -/
def setReady (r : Room) (sid : String) (ready : Bool) : Resp × Room :=
  if r.status ≠ Status.waiting then (Resp.err "", r)
  else
    match r.players.find? (fun p => decide (p.id = sid)) with
    | none => (Resp.err "", r)
    | some _ =>
      (Resp.ok none, { r with readyById := setReadyKey r.readyById sid (some ready) })

/-- `startGame` handler body. -/
def startGame (r : Room) (sid : String) (chanceDeck communityDeck : List Card) :
    Resp × Room :=
  if r.status ≠ Status.waiting then (Resp.err "ALREADY_PLAYING", r)
  else if sid ≠ r.hostId then (Resp.err "NOT_HOST", r)
  else if !allReady r then (Resp.err "NOT_READY", r)
  else
    let r1 :=
      { r with
          status := Status.playing, board := createRoomBoard,
          phase := Phase.awaiting_roll, pending := none, currentPlayerIndex := 0,
          gameOver := false, winnerId := none,
          players := r.players.map resetPlayer,
          chanceDeck := chanceDeck, chancePos := 0,
          communityDeck := communityDeck, communityPos := 0 }
    (Resp.ok none, ensureCurrentIsActive r1)

/-- `resetGame(roomCode)`. -/
def resetGame (r : Room) (chanceDeck communityDeck : List Card) : Room :=
  ensureCurrentIsActive
    { r with
        board := createRoomBoard, phase := Phase.awaiting_roll, pending := none,
        currentPlayerIndex := 0, gameOver := false, winnerId := none,
        players := r.players.map resetPlayer,
        chanceDeck := chanceDeck, chancePos := 0,
        communityDeck := communityDeck, communityPos := 0 }

/-- `restartGame` handler body. -/
def restartGame (r : Room) (sid : String) (chanceDeck communityDeck : List Card) :
    Resp × Room :=
  if r.status ≠ Status.playing then (Resp.err "NOT_PLAYING", r)
  else if sid ≠ r.hostId then (Resp.err "NOT_HOST", r)
  else (Resp.ok none, resetGame r chanceDeck communityDeck)

/-- `handleJailChoice({roomCode, pay})`.  Note the pay branch: after the debit
the handler returns without advancing the turn unless the fine bankrupted the
payer.  `Number(room.pending.fine || JAIL_FINE)` falls back on a zero fine. -/
def jailChoice (r : Room) (sid : String) (pay : Bool) : Resp × Room :=
  if r.status ≠ Status.playing then (Resp.err "NOT_PLAYING", r)
  else if r.gameOver then (Resp.err "GAME_OVER", r)
  else
    let r1 := ensureCurrentIsActive r
    match r1.players[r1.currentPlayerIndex]? with
    | none => (Resp.err "NO_CURRENT_PLAYER", r1)
    | some cp =>
      if cp.id ≠ sid then (Resp.err "NOT_YOUR_TURN", r1)
      else if cp.isBankrupt then (Resp.err "BANKRUPT", r1)
      else if cp.isDisconnected then (Resp.err "DISCONNECTED", r1)
      else
        match r1.phase, r1.pending with
        | Phase.awaiting_jail_choice, some (Pending.jail pid fine0) =>
          if pid ≠ sid then (Resp.err "NOT_IN_JAIL_CHOICE", r1)
          else
            let fine := if fine0 = 0 then JAIL_FINE else fine0
            if pay then
              let i := r1.currentPlayerIndex
              let rA := { r1 with players := updIdx r1.players i fun p =>
                            { p with balance := p.balance - fine, inJail := false,
                                     jailTurnsLeft := 0 } }
              let rB := { rA with phase := Phase.awaiting_roll, pending := none }
              let res := handleBankruptcy rB cp.id
              if res.1 then (Resp.ok (some Phase.awaiting_roll), checkWinner (advanceTurn res.2))
              else (Resp.ok (some Phase.awaiting_roll), res.2)
            else
              let i := r1.currentPlayerIndex
              let rA := { r1 with players := updIdx r1.players i fun p =>
                            let jt := p.jailTurnsLeft - 1
                            { p with jailTurnsLeft := jt,
                                     inJail := if jt = 0 then false else p.inJail } }
              (Resp.ok (some Phase.awaiting_roll),
               advanceTurn { rA with phase := Phase.awaiting_roll, pending := none })
        | _, _ => (Resp.err "NOT_IN_JAIL_CHOICE", r1)

/-- `handleCardAck({roomCode})`. -/
def cardAck (r : Room) (sid : String) : Option (Resp × Room) :=
  if r.status ≠ Status.playing then some (Resp.err "NOT_PLAYING", r)
  else if r.gameOver then some (Resp.err "GAME_OVER", r)
  else
    let r1 := ensureCurrentIsActive r
    match r1.players[r1.currentPlayerIndex]? with
    | none => some (Resp.err "NO_CURRENT_PLAYER", r1)
    | some cp =>
      if cp.id ≠ sid then some (Resp.err "NOT_YOUR_TURN", r1)
      else if cp.isBankrupt then some (Resp.err "BANKRUPT", r1)
      else if cp.isDisconnected then some (Resp.err "DISCONNECTED", r1)
      else
        match r1.phase, r1.pending with
        | Phase.awaiting_card_ack, some (Pending.card pid _ card ds) =>
          if pid ≠ sid then some (Resp.err "NOT_IN_CARD_ACK", r1)
          else
            let r2 := { r1 with pending := none }
            match applyCardEffectAfterAck r2 r1.currentPlayerIndex card ds with
            | none => none
            | some (res, r3) => some (Resp.ok (some res.phase), r3)
        | _, _ => some (Resp.err "NOT_IN_CARD_ACK", r1)

/-- The dice-movement part of the `rollDice` handler (after the validation
checks and the jail gate): move, credit the pass-START bonus on wrap, then
resolve the landing. -/
def rollMove (r : Room) (i : Nat) (d1 d2 : Nat) : Option (Resp × Room) :=
  match r.players[i]? with
  | none => none
  | some cp =>
    let steps := d1 + d2
    let len := r.board.length
    if len = 0 then none
    else
      let np := cp.position + steps
      let moved :=
        if len ≤ np then
          (np % len,
           { r with players := updIdx r.players i fun p =>
               { p with balance := p.balance + 200 } })
        else (np, r)
      let r2 := { moved.2 with players := updIdx moved.2.players i fun p =>
                    { p with position := moved.1 } }
      match resolveLanding r2 i ((steps : Int)) false with
      | none => none
      | some (res, r3) => some (Resp.ok (some res.phase), r3)

/-- `rollDice` handler body.  The two dice faces are parameters. -/
def rollDice (r : Room) (sid : String) (d1 d2 : Nat) : Option (Resp × Room) :=
  if r.status ≠ Status.playing then some (Resp.err "NOT_PLAYING", r)
  else if r.gameOver then some (Resp.err "GAME_OVER", r)
  else
    let r1 := ensureCurrentIsActive r
    match r1.players[r1.currentPlayerIndex]? with
    | none => some (Resp.err "NO_CURRENT_PLAYER", r1)
    | some cp =>
      if cp.isBankrupt then some (Resp.err "BANKRUPT", r1)
      else if cp.isDisconnected then some (Resp.err "DISCONNECTED", r1)
      else if cp.id ≠ sid then some (Resp.err "NOT_YOUR_TURN", r1)
      else if r1.phase ≠ Phase.awaiting_roll then some (Resp.err "NOT_IN_ROLL_PHASE", r1)
      else if cp.inJail ∧ 0 < cp.jailTurnsLeft then
        let prompted := maybePromptJail r1 r1.currentPlayerIndex
        if prompted.1 then some (Resp.ok (some Phase.awaiting_jail_choice), prompted.2)
        else rollMove prompted.2 r1.currentPlayerIndex d1 d2
      else rollMove r1 r1.currentPlayerIndex d1 d2

/-- `buyTile` handler body. -/
def buyTile (r : Room) (sid : String) : Resp × Room :=
  if r.status ≠ Status.playing then (Resp.err "NOT_PLAYING", r)
  else if r.gameOver then (Resp.err "GAME_OVER", r)
  else
    let r1 := ensureCurrentIsActive r
    let i := r1.currentPlayerIndex
    match r1.players[i]? with
    | none => (Resp.err "NO_CURRENT_PLAYER", r1)
    | some cp =>
      if cp.isBankrupt then (Resp.err "BANKRUPT", r1)
      else if cp.isDisconnected then (Resp.err "DISCONNECTED", r1)
      else if cp.id ≠ sid then (Resp.err "NOT_YOUR_TURN", r1)
      else
        match r1.pending with
        | some pa =>
          if r1.phase ≠ Phase.awaiting_buy ∨ pa.playerId ≠ sid then
            (Resp.err "NOT_IN_BUY_PHASE", r1)
          else
            match r1.board[cp.position]? with
            | none => (Resp.err "NOT_BUYABLE", r1)
            | some tile =>
              if !isBuyable tile then (Resp.err "NOT_BUYABLE", r1)
              else
                match tile.ownerId with
                | some _ => (Resp.err "ALREADY_OWNED", r1)
                | none =>
                  match tile.price with
                  | none => (Resp.err "NO_PRICE", r1)
                  | some price =>
                    if cp.balance < price then (Resp.err "NO_MONEY", r1)
                    else
                      let r2 := { r1 with board := updIdx r1.board cp.position fun t =>
                                    { t with ownerId := some cp.id } }
                      let r3 := { r2 with players := updIdx r2.players i fun p =>
                                    { p with balance := p.balance - price,
                                             properties := p.properties ++ [tile.id] } }
                      (Resp.ok none,
                       advanceTurn { r3 with phase := Phase.awaiting_roll, pending := none })
        | none => (Resp.err "NOT_IN_BUY_PHASE", r1)

/-- `skipBuy` handler body. -/
def skipBuy (r : Room) (sid : String) : Resp × Room :=
  if r.status ≠ Status.playing then (Resp.err "NOT_PLAYING", r)
  else if r.gameOver then (Resp.err "GAME_OVER", r)
  else
    let r1 := ensureCurrentIsActive r
    match r1.players[r1.currentPlayerIndex]? with
    | none => (Resp.err "NO_CURRENT_PLAYER", r1)
    | some cp =>
      if cp.isBankrupt then (Resp.err "BANKRUPT", r1)
      else if cp.isDisconnected then (Resp.err "DISCONNECTED", r1)
      else if cp.id ≠ sid then (Resp.err "NOT_YOUR_TURN", r1)
      else
        match r1.pending with
        | some pa =>
          if r1.phase ≠ Phase.awaiting_buy ∨ pa.playerId ≠ sid then
            (Resp.err "NOT_IN_BUY_PHASE", r1)
          else
            (Resp.ok none,
             advanceTurn { r1 with phase := Phase.awaiting_roll, pending := none })
        | none => (Resp.err "NOT_IN_BUY_PHASE", r1)

/-- The `disconnect` handler restricted to one room containing the socket.
`none` means the room was deleted (last player left while waiting). -/
def disconnect (r : Room) (sid : String) (now : Nat) : Option Room :=
  match findIdxP (fun p => decide (p.id = sid)) r.players with
  | none => some r
  | some idx =>
    if r.status = Status.waiting then
      let players := r.players.eraseIdx idx
      let r1 := { r with players := players, readyById := eraseReady r.readyById sid }
      if players.length = 0 then none
      else
        some (if r1.hostId = sid then
          match players.head? with
          | some h =>
            { r1 with hostId := h.id, readyById := setReadyKey r1.readyById h.id (some true) }
          | none => r1
        else r1)
    else
      let r1 := { r with players := updIdx r.players idx fun p =>
                    { p with isDisconnected := true, disconnectedAt := some now } }
      some (match r1.players[r1.currentPlayerIndex]? with
        | some cur =>
          if cur.id = sid then
            advanceTurn { r1 with phase := Phase.awaiting_roll, pending := none }
          else ensureCurrentIsActive r1
        | none => ensureCurrentIsActive r1)

-- ===== Iterated deck draws (for the wraparound-replay property) =====

/-- The room after `n` successive `drawCard` calls on one deck. -/
def drawN (r : Room) (dt : DeckType) : Nat → Room
  | 0 => r
  | n + 1 => (drawCard (drawN r dt n) dt).2

/-- The card produced by the draw performed after `n` earlier draws. -/
def drawResult (r : Room) (dt : DeckType) (n : Nat) : Option Card :=
  (drawCard (drawN r dt n) dt).1

/-- The deck array selected by a deck kind. -/
def deckOf (r : Room) (dt : DeckType) : List Card :=
  match dt with
  | DeckType.chance => r.chanceDeck
  | DeckType.community => r.communityDeck

/-- The draw cursor selected by a deck kind. -/
def posOf (r : Room) (dt : DeckType) : Nat :=
  match dt with
  | DeckType.chance => r.chancePos
  | DeckType.community => r.communityPos

-- ===== Invariants =====

/-- The pending/phase invariant: whenever the phase is `awaiting_roll` the
pending action is null.  (That a room holds at most one pending action is
structural: `Room.pending` is a single nullable field.) -/
def PendingInv (r : Room) : Prop :=
  r.phase = Phase.awaiting_roll → r.pending = none

/-- The bankruptcy invariant over a player list and a board: a bankrupt
player holds zero balance, an empty owned-tile list, and no board tile
references them as owner. -/
def BankruptInvP (ps : List Player) (bd : List Tile) : Prop :=
  ∀ p ∈ ps, p.isBankrupt = true →
    p.balance = 0 ∧ p.properties = [] ∧ ∀ t ∈ bd, t.ownerId ≠ some p.id

def BankruptInv (r : Room) : Prop := BankruptInvP r.players r.board

/-- Index-wise monotonicity of the bankrupt flag: once set it stays set. -/
def bankruptMono (ps ps' : List Player) : Prop :=
  ∀ (i : Nat) (p : Player), ps[i]? = some p → p.isBankrupt = true →
    ∃ p' : Player, ps'[i]? = some p' ∧ p'.isBankrupt = true

/-- Pairwise-distinct player identifiers (socket ids are unique). -/
def idsNodup (r : Room) : Prop := (r.players.map Player.id).Nodup

/-- The player-marking step of the disconnect handler while playing:
`pl.isDisconnected = true; pl.disconnectedAt = Date.now()`. -/
def markDisconnected (r : Room) (d : Nat) (now : Nat) : Room :=
  { r with players := updIdx r.players d fun p =>
      { p with isDisconnected := true, disconnectedAt := some now } }

-- ===== Concrete rooms for witnesses and counterexamples =====

/-- A room with every field at a neutral value; concrete test states below
override the relevant fields. -/
def emptyRoom : Room :=
  { hostId := "", readyById := [], players := [], status := Status.waiting,
    currentPlayerIndex := 0, board := [], phase := Phase.awaiting_roll,
    pending := none, gameOver := false, winnerId := none, chanceDeck := [],
    chancePos := 0, communityDeck := [], communityPos := 0 }

def wStation1 : Tile :=
  { id := 5, type := TileType.station, price := some 200, rent := some 25,
    ownerId := some "A" }

def wStation2 : Tile := { wStation1 with id := 15 }

/-- Two stations owned by "A": station rent should double. -/
def wC1room : Room :=
  { emptyRoom with
      status := Status.playing,
      board := [wStation1, wStation2],
      players := [createPlayer "A" "Ala" "blue", createPlayer "B" "Bob" "red"] }

/-- One bankrupt player and one survivor: the win check should fire. -/
def wC4room : Room :=
  { emptyRoom with
      status := Status.playing,
      players := [{ createPlayer "A" "Ala" "blue" with isBankrupt := true },
                  { createPlayer "B" "Bob" "red" with isDisconnected := true }] }

/-- Two bankrupt players and one non-bankrupt but disconnected player, turn
pointer on the last: `advanceTurn` walks 0 → 1 → 2 → 0 and stops on the
bankrupt player at index 0. -/
def cexC6room : Room :=
  { emptyRoom with
      status := Status.playing,
      currentPlayerIndex := 2,
      players := [{ createPlayer "A" "Ala" "blue" with isBankrupt := true },
                  { createPlayer "B" "Bob" "red" with isBankrupt := true },
                  { createPlayer "C" "Cyr" "green" with isDisconnected := true }] }

/-- A bankrupt player followed by an active one. -/
def wC6room : Room :=
  { emptyRoom with
      status := Status.playing,
      currentPlayerIndex := 1,
      players := [{ createPlayer "A" "Ala" "blue" with isBankrupt := true },
                  createPlayer "B" "Bob" "red"] }

/-- Player "A" is current, jailed, and the jail prompt is pending. -/
def c3room : Room :=
  { emptyRoom with
      status := Status.playing,
      currentPlayerIndex := 0,
      phase := Phase.awaiting_jail_choice,
      pending := some (Pending.jail "A" 50),
      players := [{ createPlayer "A" "Ala" "blue" with inJail := true, jailTurnsLeft := 1 },
                  createPlayer "B" "Bob" "red"],
      board := createRoomBoard }

/-- A playing room holding a bankrupt player "C" (zero balance, no holdings)
beside the jailed current player "A": the bankruptcy invariant holds and is
preserved when "A" pays the jail fine. -/
def wC2room : Room :=
  { emptyRoom with
      status := Status.playing,
      currentPlayerIndex := 0,
      phase := Phase.awaiting_jail_choice,
      pending := some (Pending.jail "A" 50),
      players := [{ createPlayer "A" "Ala" "blue" with inJail := true, jailTurnsLeft := 1 },
                  createPlayer "B" "Bob" "red",
                  { createPlayer "C" "Cyr" "green" with isBankrupt := true, balance := 0 }],
      board := createRoomBoard }

/-- The current player (index 0) is disconnected while two later players are
connected: an intent from the wrong player is rejected only after
`ensureCurrentIsActive` has already moved the turn pointer. -/
def cexC7room : Room :=
  { emptyRoom with
      status := Status.playing,
      currentPlayerIndex := 0,
      players := [{ createPlayer "A" "Ala" "blue" with isDisconnected := true },
                  createPlayer "B" "Bob" "red",
                  createPlayer "C" "Cyr" "green"] }

/-- A playing room in which the disconnected player "A" (owner of tile 1,
host, with a pending jail prompt) rejoins under a fresh socket id. -/
def wC8room : Room :=
  { emptyRoom with
      status := Status.playing,
      hostId := "A",
      currentPlayerIndex := 0,
      phase := Phase.awaiting_jail_choice,
      pending := some (Pending.jail "A" 50),
      readyById := [("A", some true), ("B", some true)],
      board := [{ id := 0, type := TileType.start },
                { id := 1, type := TileType.property, price := some 60,
                  group := some "brown", rentLevels := [4, 8], ownerId := some "A" }],
      players := [{ createPlayer "A" "Ala" "blue" with
                      position := 1, balance := 1200, properties := [1],
                      inJail := true, jailTurnsLeft := 1, isDisconnected := true,
                      disconnectedAt := some 99 },
                  createPlayer "B" "Bob" "red"] }

/-- A two-card chance deck with the cursor at zero. -/
def wC9room : Room :=
  { emptyRoom with
      chanceDeck := [{ id := "ch_1", effect := some (CardEffect.money 200) },
                     { id := "ch_3", effect := some (CardEffect.money (-50)) }],
      chancePos := 0 }

/-- A playing room whose current player "A" is about to disconnect while "B"
stays available. -/
def wC10room : Room :=
  { emptyRoom with
      status := Status.playing,
      currentPlayerIndex := 0,
      phase := Phase.awaiting_buy,
      pending := some (Pending.buy "A" 1),
      players := [{ createPlayer "A" "Ala" "blue" with
                      position := 1, balance := 900, properties := [3] },
                  createPlayer "B" "Bob" "red"] }

-- ===== Theorems =====

-- ===== C1: computeRent =====

/-- C1: for every room board state, tile and dice sum, `computeRent` returns:
for a property tile (with a rent schedule), the schedule entry at index
`clamp(owned-in-group, 1, schedule length) - 1`; for a station tile (with a
nonzero base flat rent), the base times `2 ^ (clamp(owned stations, 1, 4) - 1)`,
that is ×1/×2/×4/×8 for 1/2/3/4 stations; for a utility tile, the dice sum
times 10 when the owner owns at least two utilities and times 4 otherwise;
and 0 for an unowned tile. -/
theorem computeRent_spec (r : Room) (tile : Tile) (diceSum : Int) :
    (tile.ownerId = none → computeRent r tile diceSum = 0)
    ∧ (∀ o, tile.ownerId = some o → tile.type = TileType.property →
        tile.rentLevels ≠ [] →
        computeRent r tile diceSum =
          tile.rentLevels.getD
            (clamp (countOwnerGroupProps r o tile.group) 1 tile.rentLevels.length - 1) 0)
    ∧ (∀ o b, tile.ownerId = some o → tile.type = TileType.station →
        tile.rent = some b → b ≠ 0 →
        computeRent r tile diceSum =
          b * (2 : Int) ^ (clamp (countOwnerStations r o) 1 4 - 1))
    ∧ (∀ o, tile.ownerId = some o → tile.type = TileType.utility →
        computeRent r tile diceSum =
          diceSum * (if 2 ≤ countOwnerUtilities r o then 10 else 4)) := by
  refine ⟨fun h => ?_, fun o ho ht hl => ?_, fun o b ho ht hr hb => ?_,
    fun o ho ht => ?_⟩
  · simp [computeRent, h]
  · simp [computeRent, ho, ht, hl]
  · simp [computeRent, ho, ht, hr, hb]
  · simp [computeRent, ho, ht]

/-- Witness for C1: with two stations owned by "A" on the board, landing on
one of them with base rent 25 costs 25 × 2 = 50. -/
theorem computeRent_spec_witness :
    computeRent wC1room wStation1 7 =
      25 * (2 : Int) ^ (clamp (countOwnerStations wC1room "A") 1 4 - 1)
    ∧ computeRent wC1room wStation1 7 = 50 :=
  ⟨(computeRent_spec wC1room wStation1 7).2.2.1 "A" 25 rfl rfl rfl (by decide),
   by decide⟩

-- ===== Frame lemmas for the turn helpers =====

theorem ensureCurrentIsActive_players (r : Room) :
    (ensureCurrentIsActive r).players = r.players := by
  unfold ensureCurrentIsActive; split <;> rfl

theorem advanceTurn_players (r : Room) : (advanceTurn r).players = r.players := by
  unfold advanceTurn; split
  · rfl
  · rw [ensureCurrentIsActive_players]

-- ===== C4: checkWinner =====

/-- C4: after the win check, if exactly one non-bankrupt player remains
(disconnected players still counting as non-bankrupt), the room is marked
game-over with that player recorded as winner and phase/pending reset to
neutral; with zero or two-or-more non-bankrupt players the room is left
entirely unchanged. -/
theorem checkWinner_spec (r : Room) :
    (∀ p ∈ r.players, p.isBankrupt = false → p ∈ getActivePlayers r)
    ∧ (∀ w, getActivePlayers r = [w] →
        (checkWinner r).gameOver = true ∧ (checkWinner r).winnerId = some w.id
        ∧ (checkWinner r).phase = Phase.awaiting_roll ∧ (checkWinner r).pending = none)
    ∧ ((getActivePlayers r).length ≠ 1 → checkWinner r = r) := by
  refine ⟨fun p hp hb => ?_, fun w hw => ?_, fun hlen => ?_⟩
  · simp [getActivePlayers, List.mem_filter, hp, hb]
  · simp [checkWinner, hw]
  · unfold checkWinner
    rcases h : getActivePlayers r with _ | ⟨a, _ | ⟨b, t⟩⟩
    · rfl
    · exact absurd (by rw [h]; rfl) hlen
    · rfl

/-- Witness for C4: a room with one bankrupt player and one disconnected
survivor is marked game-over with the survivor as winner. -/
theorem checkWinner_spec_witness :
    (checkWinner wC4room).gameOver = true ∧ (checkWinner wC4room).winnerId = some "B"
    ∧ (checkWinner wC4room).phase = Phase.awaiting_roll
    ∧ (checkWinner wC4room).pending = none :=
  (checkWinner_spec wC4room).2.1
    { createPlayer "B" "Bob" "red" with isDisconnected := true } (by decide)

-- ===== C9: deck draws =====

theorem drawCard_chance_eq (r : Room) (h : r.chanceDeck ≠ []) :
    drawCard r DeckType.chance =
      (r.chanceDeck[if r.chanceDeck.length ≤ r.chancePos then 0 else r.chancePos]?,
       { r with chancePos :=
          (if r.chanceDeck.length ≤ r.chancePos then 0 else r.chancePos) + 1 }) := by
  have hlen : r.chanceDeck.length ≠ 0 := by
    simpa [List.length_eq_zero] using h
  simp [drawCard, hlen]

theorem drawCard_community_eq (r : Room) (h : r.communityDeck ≠ []) :
    drawCard r DeckType.community =
      (r.communityDeck[if r.communityDeck.length ≤ r.communityPos then 0
                       else r.communityPos]?,
       { r with communityPos :=
          (if r.communityDeck.length ≤ r.communityPos then 0 else r.communityPos) + 1 }) := by
  have hlen : r.communityDeck.length ≠ 0 := by
    simpa [List.length_eq_zero] using h
  simp [drawCard, hlen]

/-- Cursor/deck invariant after `n` draws starting from cursor zero. -/
theorem drawN_aux (r : Room) (dt : DeckType) (hne : deckOf r dt ≠ [])
    (h0 : posOf r dt = 0) (n : Nat) :
    deckOf (drawN r dt n) dt = deckOf r dt
    ∧ posOf (drawN r dt n) dt ≤ (deckOf r dt).length
    ∧ posOf (drawN r dt n) dt % (deckOf r dt).length = n % (deckOf r dt).length := by
  induction n with
  | zero => exact ⟨rfl, by simp [drawN, h0], by simp [drawN, h0]⟩
  | succ n ih =>
    obtain ⟨hdeck, hle, hmod⟩ := ih
    have hL0 : 0 < (deckOf r dt).length := List.length_pos.mpr hne
    cases dt with
    | chance =>
      simp only [deckOf, posOf] at hne hdeck hle hmod hL0 ⊢
      have hne' : (drawN r DeckType.chance n).chanceDeck ≠ [] := by
        rw [hdeck]; exact hne
      have hstep : drawN r DeckType.chance (n + 1)
          = { drawN r DeckType.chance n with chancePos :=
                (if (drawN r DeckType.chance n).chanceDeck.length
                    ≤ (drawN r DeckType.chance n).chancePos then 0
                 else (drawN r DeckType.chance n).chancePos) + 1 } := by
        show (drawCard (drawN r DeckType.chance n) DeckType.chance).2 = _
        rw [drawCard_chance_eq _ hne']
      rw [hstep]
      refine ⟨hdeck, ?_, ?_⟩
      · show (if _ then 0 else _) + 1 ≤ _
        rw [hdeck]
        split <;> omega
      · show ((if _ then 0 else _) + 1) % _ = _
        rw [hdeck]
        by_cases hc : r.chanceDeck.length ≤ (drawN r DeckType.chance n).chancePos
        · rw [if_pos hc]
          have hpos : (drawN r DeckType.chance n).chancePos = r.chanceDeck.length :=
            le_antisymm hle hc
          rw [hpos, Nat.mod_self] at hmod
          rw [Nat.add_mod n 1, ← hmod]
          simp
        · rw [if_neg hc, Nat.add_mod _ 1, Nat.add_mod n 1, hmod]
    | community =>
      simp only [deckOf, posOf] at hne hdeck hle hmod hL0 ⊢
      have hne' : (drawN r DeckType.community n).communityDeck ≠ [] := by
        rw [hdeck]; exact hne
      have hstep : drawN r DeckType.community (n + 1)
          = { drawN r DeckType.community n with communityPos :=
                (if (drawN r DeckType.community n).communityDeck.length
                    ≤ (drawN r DeckType.community n).communityPos then 0
                 else (drawN r DeckType.community n).communityPos) + 1 } := by
        show (drawCard (drawN r DeckType.community n) DeckType.community).2 = _
        rw [drawCard_community_eq _ hne']
      rw [hstep]
      refine ⟨hdeck, ?_, ?_⟩
      · show (if _ then 0 else _) + 1 ≤ _
        rw [hdeck]
        split <;> omega
      · show ((if _ then 0 else _) + 1) % _ = _
        rw [hdeck]
        by_cases hc : r.communityDeck.length ≤ (drawN r DeckType.community n).communityPos
        · rw [if_pos hc]
          have hpos : (drawN r DeckType.community n).communityPos
              = r.communityDeck.length := le_antisymm hle hc
          rw [hpos, Nat.mod_self] at hmod
          rw [Nat.add_mod n 1, ← hmod]
          simp
        · rw [if_neg hc, Nat.add_mod _ 1, Nat.add_mod n 1, hmod]

theorem drawResult_eq (r : Room) (dt : DeckType) (hne : deckOf r dt ≠ [])
    (h0 : posOf r dt = 0) (n : Nat) :
    drawResult r dt n = (deckOf r dt)[n % (deckOf r dt).length]? := by
  obtain ⟨hdeck, hle, hmod⟩ := drawN_aux r dt hne h0 n
  cases dt with
  | chance =>
    simp only [deckOf, posOf] at hne hdeck hle hmod ⊢
    have hne' : (drawN r DeckType.chance n).chanceDeck ≠ [] := by rw [hdeck]; exact hne
    show (drawCard (drawN r DeckType.chance n) DeckType.chance).1 = _
    rw [drawCard_chance_eq _ hne']
    simp only
    rw [hdeck]
    by_cases hc : r.chanceDeck.length ≤ (drawN r DeckType.chance n).chancePos
    · rw [if_pos hc]
      have hpos := le_antisymm hle hc
      rw [hpos, Nat.mod_self] at hmod
      rw [← hmod]
    · rw [if_neg hc]
      rw [Nat.mod_eq_of_lt (by omega)] at hmod
      rw [hmod]
  | community =>
    simp only [deckOf, posOf] at hne hdeck hle hmod ⊢
    have hne' : (drawN r DeckType.community n).communityDeck ≠ [] := by
      rw [hdeck]; exact hne
    show (drawCard (drawN r DeckType.community n) DeckType.community).1 = _
    rw [drawCard_community_eq _ hne']
    simp only
    rw [hdeck]
    by_cases hc : r.communityDeck.length ≤ (drawN r DeckType.community n).communityPos
    · rw [if_pos hc]
      have hpos := le_antisymm hle hc
      rw [hpos, Nat.mod_self] at hmod
      rw [← hmod]
    · rw [if_neg hc]
      rw [Nat.mod_eq_of_lt (by omega)] at hmod
      rw [hmod]

/-- C9: for every nonempty deck with the cursor at zero (the state left by
`initDecks`), the draw performed after `n` earlier draws returns the deck
entry at position `n mod L`; the deck array itself is never changed by
drawing, and drawing repeats with period `L` with no reshuffle at the
wrap. -/
theorem drawCard_replay (r : Room) (dt : DeckType) (hne : deckOf r dt ≠ [])
    (h0 : posOf r dt = 0) (n : Nat) :
    drawResult r dt n = (deckOf r dt)[n % (deckOf r dt).length]?
    ∧ deckOf (drawN r dt n) dt = deckOf r dt
    ∧ drawResult r dt (n + (deckOf r dt).length) = drawResult r dt n := by
  refine ⟨drawResult_eq r dt hne h0 n, (drawN_aux r dt hne h0 n).1, ?_⟩
  rw [drawResult_eq r dt hne h0 n, drawResult_eq r dt hne h0 _, Nat.add_mod_right]

/-- Witness for C9: on a two-card chance deck, the fourth draw (index 3)
returns the card at position 3 mod 2 = 1, the deck is unchanged, and the draw
two positions later repeats it. -/
theorem drawCard_replay_witness :
    drawResult wC9room DeckType.chance 3
      = (deckOf wC9room DeckType.chance)[3 % (deckOf wC9room DeckType.chance).length]?
    ∧ deckOf (drawN wC9room DeckType.chance 3) DeckType.chance
      = deckOf wC9room DeckType.chance
    ∧ drawResult wC9room DeckType.chance (3 + (deckOf wC9room DeckType.chance).length)
      = drawResult wC9room DeckType.chance 3
    ∧ drawResult wC9room DeckType.chance 3
      = some { id := "ch_3", effect := some (CardEffect.money (-50)) } := by
  have h := drawCard_replay wC9room DeckType.chance (by decide) rfl 3
  exact ⟨h.1, h.2.1, h.2.2, by decide⟩

-- ===== C6: turn advancement =====

/-- If some index reachable within the remaining tries is active, the skip
loop stops on an active index (and stays in range). -/
theorem ensureLoop_spec (ps : List Player) :
    ∀ fuel idx, idx < ps.length →
      (∃ k, k < fuel ∧ inactiveAt ps ((idx + k) % ps.length) = false) →
      inactiveAt ps (ensureLoop ps idx fuel) = false
      ∧ ensureLoop ps idx fuel < ps.length := by
  intro fuel
  induction fuel with
  | zero =>
    intro idx _ h
    obtain ⟨k, hk, _⟩ := h
    omega
  | succ fuel ih =>
    intro idx hidx h
    obtain ⟨k, hk, hact⟩ := h
    by_cases hcur : inactiveAt ps idx = true
    · have hlen : 0 < ps.length := Nat.lt_of_le_of_lt (Nat.zero_le idx) hidx
      have hk0 : k ≠ 0 := by
        intro hzero
        subst hzero
        rw [Nat.add_zero, Nat.mod_eq_of_lt hidx, hcur] at hact
        exact (by decide : ¬ (true = false)) hact
      obtain ⟨k', rfl⟩ : ∃ k', k = k' + 1 := ⟨k - 1, by omega⟩
      have hnext : (idx + 1) % ps.length < ps.length := Nat.mod_lt _ hlen
      have hact' : inactiveAt ps (((idx + 1) % ps.length + k') % ps.length) = false := by
        rw [Nat.mod_add_mod]
        have harr : idx + 1 + k' = idx + (k' + 1) := by omega
        rw [harr]
        exact hact
      rw [ensureLoop, if_pos hcur]
      exact ih _ hnext ⟨k', by omega, hact'⟩
    · rw [ensureLoop, if_neg hcur]
      exact ⟨by simpa using hcur, hidx⟩

/-- Auxiliary for turn advancement: when some player is neither bankrupt nor
disconnected, `advanceTurn` stops at an in-range index whose player is
active. -/
theorem advanceTurn_lands_active (r : Room) (j : Nat) (q : Player)
    (hq : r.players[j]? = some q)
    (hqb : q.isBankrupt = false) (hqd : q.isDisconnected = false) :
    (advanceTurn r).currentPlayerIndex < r.players.length
    ∧ inactiveAt r.players (advanceTurn r).currentPlayerIndex = false
    ∧ (advanceTurn r).players = r.players := by
  have hj : j < r.players.length := by
    by_contra hc
    rw [List.getElem?_eq_none (by omega)] at hq
    cases hq
  have hne0 : ¬ r.players.length = 0 := by omega
  have hadv : advanceTurn r = { r with currentPlayerIndex :=
      (ensureLoop r.players ((r.currentPlayerIndex + 1) % r.players.length)
        r.players.length) } := by
    unfold advanceTurn ensureCurrentIsActive
    simp [hne0]
  have hidx2 : (r.currentPlayerIndex + 1) % r.players.length < r.players.length :=
    Nat.mod_lt _ (by omega)
  have hjact : inactiveAt r.players j = false := by simp [inactiveAt, hq, hqb, hqd]
  have hk : (j + r.players.length - (r.currentPlayerIndex + 1) % r.players.length)
      % r.players.length < r.players.length := Nat.mod_lt _ (by omega)
  have hidxk : ((r.currentPlayerIndex + 1) % r.players.length
      + (j + r.players.length - (r.currentPlayerIndex + 1) % r.players.length)
        % r.players.length) % r.players.length = j := by
    rw [Nat.add_mod_mod]
    have harr : (r.currentPlayerIndex + 1) % r.players.length
        + (j + r.players.length - (r.currentPlayerIndex + 1) % r.players.length)
        = r.players.length + j := by omega
    rw [harr, Nat.add_mod_left, Nat.mod_eq_of_lt hj]
  obtain ⟨hfin_act, hfin_lt⟩ :=
    ensureLoop_spec r.players r.players.length
      ((r.currentPlayerIndex + 1) % r.players.length) hidx2
      ⟨_, hk, by rw [hidxk]; exact hjact⟩
  rw [hadv]
  exact ⟨hfin_lt, hfin_act, rfl⟩

/-- C6 (amended): for a room with at least 2 players of which at least one is
neither bankrupt nor disconnected, `advanceTurn` (increment modulo player
count, then skip bankrupt-or-disconnected players for up to one full lap)
never leaves a bankrupt — or disconnected — player as the current player. -/
theorem advanceTurn_never_bankrupt (r : Room) (h2 : 2 ≤ r.players.length)
    (j : Nat) (q : Player) (hq : r.players[j]? = some q)
    (hqb : q.isBankrupt = false) (hqd : q.isDisconnected = false) :
    ∃ p, (advanceTurn r).players[(advanceTurn r).currentPlayerIndex]? = some p
       ∧ p.isBankrupt = false ∧ p.isDisconnected = false := by
  obtain ⟨hlt, hact, hps⟩ := advanceTurn_lands_active r j q hq hqb hqd
  obtain ⟨p, hp⟩ : ∃ p, r.players[(advanceTurn r).currentPlayerIndex]? = some p := by
    rw [List.getElem?_eq_getElem hlt]
    exact ⟨_, rfl⟩
  simp only [inactiveAt, hp] at hact
  rw [Bool.or_eq_false_iff] at hact
  exact ⟨p, by rw [hps]; exact hp, hact.1, hact.2⟩

/-- Counterexample for C6 as stated: a 3-player room with two bankrupt
players and one non-bankrupt (but disconnected) player in which
`advanceTurn` stops on a bankrupt player. -/
theorem advanceTurn_bankrupt_cex :
    2 ≤ cexC6room.players.length
    ∧ (∃ q ∈ cexC6room.players, q.isBankrupt = false)
    ∧ ((advanceTurn cexC6room).players[(advanceTurn cexC6room).currentPlayerIndex]?).map
        Player.isBankrupt = some true := by
  refine ⟨by decide, ⟨{ createPlayer "C" "Cyr" "green" with isDisconnected := true },
    by decide, by decide⟩, by decide⟩

/-- Witness for C6 (amended): with one bankrupt and one active player,
`advanceTurn` lands on the active player. -/
theorem advanceTurn_never_bankrupt_witness :
    ∃ p, (advanceTurn wC6room).players[(advanceTurn wC6room).currentPlayerIndex]? = some p
       ∧ p.isBankrupt = false ∧ p.isDisconnected = false :=
  advanceTurn_never_bankrupt wC6room (by decide) 1 (createPlayer "B" "Bob" "red")
    (by decide) rfl rfl

-- ===== Helper lemmas on indexed updates and first-match searches =====

theorem length_updIdx {α : Type} (ps : List α) (i : Nat) (f : α → α) :
    (updIdx ps i f).length = ps.length := by
  induction ps generalizing i with
  | nil => rfl
  | cons a as ih =>
    cases i with
    | zero => rfl
    | succ n => simp [updIdx, ih]

theorem getIdx_updIdx_self {α : Type} (ps : List α) (i : Nat) (f : α → α) :
    (updIdx ps i f)[i]? = (ps[i]?).map f := by
  induction ps generalizing i with
  | nil => cases i <;> rfl
  | cons a as ih =>
    cases i with
    | zero => simp [updIdx]
    | succ n => simpa [updIdx] using ih n

theorem getIdx_updIdx_ne {α : Type} (ps : List α) (i j : Nat) (f : α → α)
    (h : i ≠ j) : (updIdx ps i f)[j]? = ps[j]? := by
  induction ps generalizing i j with
  | nil => rfl
  | cons a as ih =>
    cases i with
    | zero =>
      cases j with
      | zero => exact absurd rfl h
      | succ m => rfl
    | succ n =>
      cases j with
      | zero => simp [updIdx]
      | succ m => simpa [updIdx] using ih n m (by omega)

theorem find?_first {α : Type} (pred : α → Bool) (ps : List α) (i : Nat) (a : α)
    (ha : ps[i]? = some a) (hpa : pred a = true)
    (hmin : ∀ k, k < i → ∀ b, ps[k]? = some b → pred b = false) :
    ps.find? pred = some a := by
  induction ps generalizing i with
  | nil => cases ha
  | cons p ps' ih =>
    cases i with
    | zero =>
      rw [List.getElem?_cons_zero] at ha
      obtain rfl := Option.some_inj.mp ha
      rw [List.find?_cons_of_pos _ hpa]
    | succ n =>
      have hp : pred p = false := hmin 0 (Nat.succ_pos n) p (by simp)
      rw [List.find?_cons_of_neg _ (by simp [hp])]
      exact ih n (by simpa using ha)
        (fun k hk b hb => hmin (k + 1) (by omega) b (by simpa using hb))

theorem findIdxP_first (pred : Player → Bool) (ps : List Player) (i : Nat) (a : Player)
    (ha : ps[i]? = some a) (hpa : pred a = true)
    (hmin : ∀ k, k < i → ∀ b, ps[k]? = some b → pred b = false) :
    findIdxP pred ps = some i := by
  induction ps generalizing i with
  | nil => cases ha
  | cons p ps' ih =>
    cases i with
    | zero =>
      rw [List.getElem?_cons_zero] at ha
      obtain rfl := Option.some_inj.mp ha
      simp [findIdxP, hpa]
    | succ n =>
      have hp : pred p = false := hmin 0 (Nat.succ_pos n) p (by simp)
      rw [show findIdxP pred (p :: ps')
            = if pred p then some 0 else (findIdxP pred ps').map (· + 1) from rfl,
          hp]
      simp only [if_false, Bool.false_eq_true]
      rw [ih n (by simpa using ha)
        (fun k hk b hb => hmin (k + 1) (by omega) b (by simpa using hb))]
      rfl

/-- When the current player is neither bankrupt nor disconnected,
`ensureCurrentIsActive` is the identity. -/
theorem ensureCurrentIsActive_id (r : Room)
    (h : inactiveAt r.players r.currentPlayerIndex = false) :
    ensureCurrentIsActive r = r := by
  unfold ensureCurrentIsActive
  split
  · rfl
  · next hne =>
    obtain ⟨n, hn⟩ : ∃ n, r.players.length = n + 1 :=
      ⟨r.players.length - 1, by omega⟩
    rw [hn, ensureLoop, if_neg (by simp [h])]

-- ===== C3: jail-choice pay branch =====

/-- Counterexample for C3 as stated: in a 2-player room where the jailed
current player "A" accepts the pay option, the intent is accepted, the fine
is debited and jail is cleared, but the current-turn pointer does NOT
advance — "A" is still the current player afterwards, with "B" available. -/
theorem jailChoice_pay_cex :
    (jailChoice c3room "A" true).1 = Resp.ok (some Phase.awaiting_roll)
    ∧ (jailChoice c3room "A" true).2.currentPlayerIndex = c3room.currentPlayerIndex
    ∧ ((jailChoice c3room "A" true).2.players[(jailChoice c3room "A"
        true).2.currentPlayerIndex]?).map Player.id = some "A"
    ∧ ((jailChoice c3room "A" true).2.players[0]?).map Player.balance = some 1450
    ∧ ((jailChoice c3room "A" true).2.players[0]?).map Player.inJail = some false
    ∧ ((c3room.players[1]?).map Player.isBankrupt = some false
       ∧ (c3room.players[1]?).map Player.isDisconnected = some false) := by
  refine ⟨by decide, by decide, by decide, by decide, by decide, by decide, by decide⟩

/-- C3 (amended): when the jail-choice intent is accepted with the pay
option and the debit leaves the payer solvent, the handler debits the fine
(`pending.fine`, with the fixed fine as fallback for a zero amount), clears
the jailed state, resets the phase to `awaiting_roll` and clears the pending
action, but does NOT advance the turn: the payer remains the current player
(and rolls next).  Only when the debit bankrupts the payer does the turn
advance. -/
theorem jailChoice_pay_spec (r : Room) (sid : String) (cp : Player) (fine0 : Int)
    (hstat : r.status = Status.playing) (hgo : r.gameOver = false)
    (hcur : r.players[r.currentPlayerIndex]? = some cp)
    (hb : cp.isBankrupt = false) (hd : cp.isDisconnected = false)
    (hid : cp.id = sid)
    (hph : r.phase = Phase.awaiting_jail_choice)
    (hpend : r.pending = some (Pending.jail sid fine0))
    (hfirst : ∀ k, k < r.currentPlayerIndex → ∀ b, r.players[k]? = some b → b.id ≠ sid)
    (hsolv : 0 ≤ cp.balance - (if fine0 = 0 then JAIL_FINE else fine0)) :
    jailChoice r sid true =
      (Resp.ok (some Phase.awaiting_roll),
       { r with
           players := updIdx r.players r.currentPlayerIndex fun p =>
             { p with balance := p.balance - (if fine0 = 0 then JAIL_FINE else fine0),
                      inJail := false, jailTurnsLeft := 0 },
           phase := Phase.awaiting_roll, pending := none })
    ∧ ((jailChoice r sid true).2.players[(jailChoice r sid
        true).2.currentPlayerIndex]?).map Player.id = some sid := by
  have hact : inactiveAt r.players r.currentPlayerIndex = false := by
    simp [inactiveAt, hcur, hb, hd]
  have hens := ensureCurrentIsActive_id r hact
  have hgpb : getPlayerById
      { r with
          players := updIdx r.players r.currentPlayerIndex fun p =>
            { p with balance := p.balance - (if fine0 = 0 then JAIL_FINE else fine0),
                     inJail := false, jailTurnsLeft := 0 },
          phase := Phase.awaiting_roll, pending := none } cp.id
      = some { cp with
                 balance := cp.balance - (if fine0 = 0 then JAIL_FINE else fine0),
                 inJail := false, jailTurnsLeft := 0 } := by
    unfold getPlayerById
    apply find?_first _ _ r.currentPlayerIndex
    · show (updIdx r.players r.currentPlayerIndex _)[r.currentPlayerIndex]? = _
      rw [getIdx_updIdx_self, hcur]
      rfl
    · simp
    · intro k hk b hb'
      rw [show ({ r with
          players := updIdx r.players r.currentPlayerIndex fun p =>
            { p with balance := p.balance - (if fine0 = 0 then JAIL_FINE else fine0),
                     inJail := false, jailTurnsLeft := 0 },
          phase := Phase.awaiting_roll, pending := none } : Room).players
            = updIdx r.players r.currentPlayerIndex _ from rfl,
        getIdx_updIdx_ne _ _ _ _ (by omega)] at hb'
      have hne := hfirst k hk b hb'
      simp [hid ▸ hne]
  subst hid
  have hhb : handleBankruptcy
      { r with
          players := updIdx r.players r.currentPlayerIndex fun p =>
            { p with balance := p.balance - (if fine0 = 0 then JAIL_FINE else fine0),
                     inJail := false, jailTurnsLeft := 0 },
          phase := Phase.awaiting_roll, pending := none } cp.id
      = (false,
         { r with
             players := updIdx r.players r.currentPlayerIndex fun p =>
               { p with balance := p.balance - (if fine0 = 0 then JAIL_FINE else fine0),
                        inJail := false, jailTurnsLeft := 0 },
             phase := Phase.awaiting_roll, pending := none }) := by
    unfold handleBankruptcy
    rw [hgpb]
    simp only [hgo, hb, Bool.false_eq_true, if_false]
    rw [if_pos hsolv]
  have key : jailChoice r cp.id true =
      (Resp.ok (some Phase.awaiting_roll),
       { r with
           players := updIdx r.players r.currentPlayerIndex fun p =>
             { p with balance := p.balance - (if fine0 = 0 then JAIL_FINE else fine0),
                      inJail := false, jailTurnsLeft := 0 },
           phase := Phase.awaiting_roll, pending := none }) := by
    unfold jailChoice
    rw [hstat, hgo, hens]
    simp only [hcur, hph, hpend, hb, hd, ne_eq, not_true_eq_false, if_false,
      Bool.false_eq_true, ite_true, ite_false, not_false_eq_true]
    rw [hhb]
    simp only [Bool.false_eq_true, if_false, hstat, hgo]
  refine ⟨key, ?_⟩
  rw [key]
  show ((updIdx r.players r.currentPlayerIndex _)[r.currentPlayerIndex]?).map Player.id
      = some cp.id
  rw [getIdx_updIdx_self, hcur]
  rfl

/-- Witness for C3 (amended): the jailed player "A" pays, stays solvent, and
remains the current player. -/
theorem jailChoice_pay_spec_witness :
    jailChoice c3room "A" true =
      (Resp.ok (some Phase.awaiting_roll),
       { c3room with
           players := updIdx c3room.players c3room.currentPlayerIndex fun p =>
             { p with balance := p.balance - (if (50 : Int) = 0 then JAIL_FINE else 50),
                      inJail := false, jailTurnsLeft := 0 },
           phase := Phase.awaiting_roll, pending := none })
    ∧ ((jailChoice c3room "A" true).2.players[(jailChoice c3room "A"
        true).2.currentPlayerIndex]?).map Player.id = some "A" :=
  jailChoice_pay_spec c3room "A"
    { createPlayer "A" "Ala" "blue" with inJail := true, jailTurnsLeft := 1 } 50
    rfl rfl (by decide) rfl rfl rfl rfl rfl
    (by intro k hk b hb; rw [show c3room.currentPlayerIndex = 0 from rfl] at hk; omega)
    (by decide)

-- ===== C7: rejected intents =====

theorem rollMove_no_err (r : Room) (i d1 d2 : Nat) (c : String) (r' : Room) :
    rollMove r i d1 d2 = some (Resp.err c, r') → False := by
  intro h
  unfold rollMove at h
  split at h
  · cases h
  · simp only [] at h
    split at h
    · cases h
    · split at h
      · cases h
      · simp at h

theorem rollDice_reject (r : Room) (sid : String) (d1 d2 : Nat) (c : String) (r' : Room)
    (h : rollDice r sid d1 d2 = some (Resp.err c, r')) :
    r' = r ∨ r' = ensureCurrentIsActive r := by
  unfold rollDice at h
  split at h
  · simp only [Option.some.injEq, Prod.mk.injEq] at h
    exact Or.inl h.2.symm
  · split at h
    · simp only [Option.some.injEq, Prod.mk.injEq] at h
      exact Or.inl h.2.symm
    · simp only [] at h
      split at h
      · simp only [Option.some.injEq, Prod.mk.injEq] at h
        exact Or.inr h.2.symm
      · split at h
        · simp only [Option.some.injEq, Prod.mk.injEq] at h
          exact Or.inr h.2.symm
        · split at h
          · simp only [Option.some.injEq, Prod.mk.injEq] at h
            exact Or.inr h.2.symm
          · split at h
            · simp only [Option.some.injEq, Prod.mk.injEq] at h
              exact Or.inr h.2.symm
            · split at h
              · simp only [Option.some.injEq, Prod.mk.injEq] at h
                exact Or.inr h.2.symm
              · split at h
                · split at h
                  · simp at h
                  · exact (rollMove_no_err _ _ _ _ _ _ h).elim
                · exact (rollMove_no_err _ _ _ _ _ _ h).elim

theorem jailChoice_reject (r : Room) (sid : String) (pay : Bool) (c : String) (r' : Room)
    (h : jailChoice r sid pay = (Resp.err c, r')) :
    r' = r ∨ r' = ensureCurrentIsActive r := by
  unfold jailChoice at h
  split at h
  · simp only [Prod.mk.injEq] at h
    exact Or.inl h.2.symm
  · split at h
    · simp only [Prod.mk.injEq] at h
      exact Or.inl h.2.symm
    · simp only [] at h
      split at h
      · simp only [Prod.mk.injEq] at h
        exact Or.inr h.2.symm
      · split at h
        · simp only [Prod.mk.injEq] at h
          exact Or.inr h.2.symm
        · split at h
          · simp only [Prod.mk.injEq] at h
            exact Or.inr h.2.symm
          · split at h
            · simp only [Prod.mk.injEq] at h
              exact Or.inr h.2.symm
            · split at h
              · split at h
                · simp only [Prod.mk.injEq] at h
                  exact Or.inr h.2.symm
                · split at h
                  · split at h
                    · split at h
                      · simp at h
                      · simp at h
                    · split at h
                      · simp at h
                      · simp at h
                  · simp at h
              · simp only [Prod.mk.injEq] at h
                exact Or.inr h.2.symm

theorem buyTile_reject (r : Room) (sid : String) (c : String) (r' : Room)
    (h : buyTile r sid = (Resp.err c, r')) :
    r' = r ∨ r' = ensureCurrentIsActive r := by
  unfold buyTile at h
  split at h
  · simp only [Prod.mk.injEq] at h
    exact Or.inl h.2.symm
  · split at h
    · simp only [Prod.mk.injEq] at h
      exact Or.inl h.2.symm
    · simp only [] at h
      split at h
      · simp only [Prod.mk.injEq] at h
        exact Or.inr h.2.symm
      · split at h
        · simp only [Prod.mk.injEq] at h
          exact Or.inr h.2.symm
        · split at h
          · simp only [Prod.mk.injEq] at h
            exact Or.inr h.2.symm
          · split at h
            · simp only [Prod.mk.injEq] at h
              exact Or.inr h.2.symm
            · split at h
              · split at h
                · simp only [Prod.mk.injEq] at h
                  exact Or.inr h.2.symm
                · split at h
                  · simp only [Prod.mk.injEq] at h
                    exact Or.inr h.2.symm
                  · split at h
                    · simp only [Prod.mk.injEq] at h
                      exact Or.inr h.2.symm
                    · split at h
                      · simp only [Prod.mk.injEq] at h
                        exact Or.inr h.2.symm
                      · split at h
                        · simp only [Prod.mk.injEq] at h
                          exact Or.inr h.2.symm
                        · split at h
                          · simp only [Prod.mk.injEq] at h
                            exact Or.inr h.2.symm
                          · simp at h
              · simp only [Prod.mk.injEq] at h
                exact Or.inr h.2.symm

theorem skipBuy_reject (r : Room) (sid : String) (c : String) (r' : Room)
    (h : skipBuy r sid = (Resp.err c, r')) :
    r' = r ∨ r' = ensureCurrentIsActive r := by
  unfold skipBuy at h
  split at h
  · simp only [Prod.mk.injEq] at h
    exact Or.inl h.2.symm
  · split at h
    · simp only [Prod.mk.injEq] at h
      exact Or.inl h.2.symm
    · simp only [] at h
      split at h
      · simp only [Prod.mk.injEq] at h
        exact Or.inr h.2.symm
      · split at h
        · simp only [Prod.mk.injEq] at h
          exact Or.inr h.2.symm
        · split at h
          · simp only [Prod.mk.injEq] at h
            exact Or.inr h.2.symm
          · split at h
            · simp only [Prod.mk.injEq] at h
              exact Or.inr h.2.symm
            · split at h
              · split at h
                · simp only [Prod.mk.injEq] at h
                  exact Or.inr h.2.symm
                · simp at h
              · simp only [Prod.mk.injEq] at h
                exact Or.inr h.2.symm

theorem cardAck_reject (r : Room) (sid : String) (c : String) (r' : Room)
    (h : cardAck r sid = some (Resp.err c, r')) :
    r' = r ∨ r' = ensureCurrentIsActive r := by
  unfold cardAck at h
  split at h
  · simp only [Option.some.injEq, Prod.mk.injEq] at h
    exact Or.inl h.2.symm
  · split at h
    · simp only [Option.some.injEq, Prod.mk.injEq] at h
      exact Or.inl h.2.symm
    · simp only [] at h
      split at h
      · simp only [Option.some.injEq, Prod.mk.injEq] at h
        exact Or.inr h.2.symm
      · split at h
        · simp only [Option.some.injEq, Prod.mk.injEq] at h
          exact Or.inr h.2.symm
        · split at h
          · simp only [Option.some.injEq, Prod.mk.injEq] at h
            exact Or.inr h.2.symm
          · split at h
            · simp only [Option.some.injEq, Prod.mk.injEq] at h
              exact Or.inr h.2.symm
            · split at h
              · split at h
                · simp only [Option.some.injEq, Prod.mk.injEq] at h
                  exact Or.inr h.2.symm
                · split at h
                  · cases h
                  · simp at h
              · simp only [Option.some.injEq, Prod.mk.injEq] at h
                exact Or.inr h.2.symm

theorem joinRoom_reject (r : Room) (nickname sid : String) (c : String) (r' : Room)
    (h : joinRoom r nickname sid = (Resp.err c, r')) : r' = r := by
  unfold joinRoom at h
  split at h
  · split at h
    · simp only [Prod.mk.injEq] at h
      exact h.2.symm
    · simp only [] at h
      split at h <;> simp_all
  · split at h
    · simp only [Prod.mk.injEq] at h
      exact h.2.symm
    · split at h
      · simp at h
      · split at h
        · simp only [Prod.mk.injEq] at h
          exact h.2.symm
        · simp at h

theorem setReady_reject (r : Room) (sid : String) (ready : Bool) (c : String) (r' : Room)
    (h : setReady r sid ready = (Resp.err c, r')) : r' = r := by
  unfold setReady at h
  split at h
  · simp only [Prod.mk.injEq] at h
    exact h.2.symm
  · split at h
    · simp only [Prod.mk.injEq] at h
      exact h.2.symm
    · simp at h

theorem startGame_reject (r : Room) (sid : String) (cd comd : List Card)
    (c : String) (r' : Room) (h : startGame r sid cd comd = (Resp.err c, r')) :
    r' = r := by
  unfold startGame at h
  split at h
  · simp only [Prod.mk.injEq] at h
    exact h.2.symm
  · split at h
    · simp only [Prod.mk.injEq] at h
      exact h.2.symm
    · split at h
      · simp only [Prod.mk.injEq] at h
        exact h.2.symm
      · simp at h

theorem restartGame_reject (r : Room) (sid : String) (cd comd : List Card)
    (c : String) (r' : Room) (h : restartGame r sid cd comd = (Resp.err c, r')) :
    r' = r := by
  unfold restartGame at h
  split at h
  · simp only [Prod.mk.injEq] at h
    exact h.2.symm
  · split at h
    · simp only [Prod.mk.injEq] at h
      exact h.2.symm
    · simp at h

/-- Counterexample for C7 as stated: in a playing room whose current player
is disconnected, a roll intent from a non-current player is rejected with a
reason code, yet the room's current-turn pointer has been moved (0 → 1) by
the rejected intent. -/
theorem rejected_intent_mutates_cex :
    (rollDice cexC7room "C" 1 1).map (fun x => (x.1, x.2.currentPlayerIndex))
      = some (Resp.err "NOT_YOUR_TURN", 1)
    ∧ cexC7room.currentPlayerIndex = 0 := by
  exact ⟨by decide, by decide⟩

/-- C7 (amended): an intent that fails a validation check returns a
structured rejection with a machine-readable reason code and leaves the room
unchanged, except that the five gameplay handlers (roll, buy, skip-buy,
jail-choice, card-ack) first normalize the current-turn pointer past
bankrupt or disconnected players (`ensureCurrentIsActive`) before
validating; whenever the current player is neither bankrupt nor
disconnected — the normal case — a rejected intent leaves the entire room
state unchanged. -/
theorem rejected_intents_spec (r : Room) (sid : String) :
    (∀ d1 d2 c r', rollDice r sid d1 d2 = some (Resp.err c, r') →
        r' = r ∨ r' = ensureCurrentIsActive r)
    ∧ (∀ c r', buyTile r sid = (Resp.err c, r') → r' = r ∨ r' = ensureCurrentIsActive r)
    ∧ (∀ c r', skipBuy r sid = (Resp.err c, r') → r' = r ∨ r' = ensureCurrentIsActive r)
    ∧ (∀ pay c r', jailChoice r sid pay = (Resp.err c, r') →
        r' = r ∨ r' = ensureCurrentIsActive r)
    ∧ (∀ c r', cardAck r sid = some (Resp.err c, r') →
        r' = r ∨ r' = ensureCurrentIsActive r)
    ∧ (∀ nick c r', joinRoom r nick sid = (Resp.err c, r') → r' = r)
    ∧ (∀ ready c r', setReady r sid ready = (Resp.err c, r') → r' = r)
    ∧ (∀ cd comd c r', startGame r sid cd comd = (Resp.err c, r') → r' = r)
    ∧ (∀ cd comd c r', restartGame r sid cd comd = (Resp.err c, r') → r' = r)
    ∧ (inactiveAt r.players r.currentPlayerIndex = false →
        (∀ d1 d2 c r', rollDice r sid d1 d2 = some (Resp.err c, r') → r' = r)
        ∧ (∀ c r', buyTile r sid = (Resp.err c, r') → r' = r)
        ∧ (∀ c r', skipBuy r sid = (Resp.err c, r') → r' = r)
        ∧ (∀ pay c r', jailChoice r sid pay = (Resp.err c, r') → r' = r)
        ∧ (∀ c r', cardAck r sid = some (Resp.err c, r') → r' = r)) := by
  refine ⟨fun d1 d2 c r' h => rollDice_reject r sid d1 d2 c r' h,
          fun c r' h => buyTile_reject r sid c r' h,
          fun c r' h => skipBuy_reject r sid c r' h,
          fun pay c r' h => jailChoice_reject r sid pay c r' h,
          fun c r' h => cardAck_reject r sid c r' h,
          fun nick c r' h => joinRoom_reject r nick sid c r' h,
          fun ready c r' h => setReady_reject r sid ready c r' h,
          fun cd comd c r' h => startGame_reject r sid cd comd c r' h,
          fun cd comd c r' h => restartGame_reject r sid cd comd c r' h,
          fun hact => ?_⟩
  have hid := ensureCurrentIsActive_id r hact
  exact ⟨fun d1 d2 c r' h => by
            rcases rollDice_reject r sid d1 d2 c r' h with h1 | h1
            · exact h1
            · rw [h1, hid],
         fun c r' h => by
            rcases buyTile_reject r sid c r' h with h1 | h1
            · exact h1
            · rw [h1, hid],
         fun c r' h => by
            rcases skipBuy_reject r sid c r' h with h1 | h1
            · exact h1
            · rw [h1, hid],
         fun pay c r' h => by
            rcases jailChoice_reject r sid pay c r' h with h1 | h1
            · exact h1
            · rw [h1, hid],
         fun c r' h => by
            rcases cardAck_reject r sid c r' h with h1 | h1
            · exact h1
            · rw [h1, hid]⟩

/-- Witness for C7 (amended): the rejected roll in `cexC7room` leaves the
room at `ensureCurrentIsActive cexC7room` (turn pointer repaired, all other
fields untouched). -/
theorem rejected_intents_spec_witness :
    { cexC7room with currentPlayerIndex := 1 } = cexC7room
    ∨ { cexC7room with currentPlayerIndex := 1 } = ensureCurrentIsActive cexC7room :=
  (rejected_intents_spec cexC7room "C").1 1 1 "NOT_YOUR_TURN"
    { cexC7room with currentPlayerIndex := 1 } (by decide)

-- ===== C5: pending-action invariant =====

theorem ensureCurrentIsActive_phase (r : Room) :
    (ensureCurrentIsActive r).phase = r.phase := by
  unfold ensureCurrentIsActive; split <;> rfl

theorem ensureCurrentIsActive_pending (r : Room) :
    (ensureCurrentIsActive r).pending = r.pending := by
  unfold ensureCurrentIsActive; split <;> rfl

theorem advanceTurn_phase (r : Room) : (advanceTurn r).phase = r.phase := by
  unfold advanceTurn; split
  · rfl
  · rw [ensureCurrentIsActive_phase]

theorem advanceTurn_pending (r : Room) : (advanceTurn r).pending = r.pending := by
  unfold advanceTurn; split
  · rfl
  · rw [ensureCurrentIsActive_pending]

theorem pendingInv_ensure (r : Room) (h : PendingInv r) :
    PendingInv (ensureCurrentIsActive r) := by
  unfold PendingInv
  rw [ensureCurrentIsActive_phase, ensureCurrentIsActive_pending]
  exact h

theorem pendingInv_advance (r : Room) (h : PendingInv r) :
    PendingInv (advanceTurn r) := by
  unfold PendingInv
  rw [advanceTurn_phase, advanceTurn_pending]
  exact h

theorem checkWinner_cases (r : Room) :
    checkWinner r = r
    ∨ ((checkWinner r).phase = Phase.awaiting_roll ∧ (checkWinner r).pending = none) := by
  unfold checkWinner
  rcases getActivePlayers r with _ | ⟨a, _ | ⟨b, t⟩⟩
  · exact Or.inl rfl
  · exact Or.inr ⟨rfl, rfl⟩
  · exact Or.inl rfl

theorem pendingInv_checkWinner (r : Room) (h : PendingInv r) :
    PendingInv (checkWinner r) := by
  rcases checkWinner_cases r with hc | hc
  · rw [hc]; exact h
  · exact fun _ => hc.2

/-- `handleBankruptcy` either rejects (returning the room unchanged) or
fires, returning `checkWinner` of a room with a neutral phase and no
pending action. -/
theorem handleBankruptcy_shape (r : Room) (pid : String) :
    handleBankruptcy r pid = (false, r)
    ∨ ∃ r4, handleBankruptcy r pid = (true, checkWinner r4)
        ∧ r4.phase = Phase.awaiting_roll ∧ r4.pending = none := by
  unfold handleBankruptcy
  split
  · exact Or.inl rfl
  · split
    · exact Or.inl rfl
    · split
      · exact Or.inl rfl
      · split
        · exact Or.inl rfl
        · exact Or.inr ⟨_, rfl, rfl, rfl⟩

theorem pendingInv_handleBankruptcy (r : Room) (pid : String) (h : PendingInv r) :
    PendingInv (handleBankruptcy r pid).2 := by
  rcases handleBankruptcy_shape r pid with hc | ⟨r4, hc, _, hp⟩
  · rw [hc]; exact h
  · rw [hc]
    exact pendingInv_checkWinner _ (fun _ => hp)

theorem pendingInv_handleBankruptcy_true (r : Room) (pid : String)
    (h1 : (handleBankruptcy r pid).1 = true) :
    PendingInv (handleBankruptcy r pid).2 := by
  rcases handleBankruptcy_shape r pid with hc | ⟨r4, hc, _, hp⟩
  · rw [hc] at h1; cases h1
  · rw [hc]
    exact pendingInv_checkWinner _ (fun _ => hp)

theorem pendingInv_landingTail (r : Room) (tile : Tile) (pid : String) :
    PendingInv (landingTail r tile pid).2 := by
  unfold landingTail
  split
  · intro hph; cases hph
  · exact pendingInv_advance _ (fun _ => rfl)

theorem pendingInv_resolveLanding (r : Room) (i : Nat) (ds : Int) (fc : Bool)
    (res : StepResult) (r' : Room) (h : resolveLanding r i ds fc = some (res, r')) :
    PendingInv r' := by
  unfold resolveLanding at h
  split at h
  · cases h
  · split at h
    · cases h
    · split at h
      · simp only [Option.some.injEq, Prod.mk.injEq] at h
        rw [← h.2]
        exact pendingInv_checkWinner _ (pendingInv_advance _ (fun _ => rfl))
      · simp only [] at h
        split at h
        · -- taxStep produced Sum.inl out
          next out heq =>
            split at heq
            · -- tax tile branch
              split at heq
              · next hres =>
                  simp only [Sum.inl.injEq] at heq
                  simp only [Option.some.injEq] at h
                  rw [← heq] at h
                  simp only [Prod.mk.injEq] at h
                  rw [← h.2]
                  exact pendingInv_advance _ (pendingInv_handleBankruptcy_true _ _ hres)
              · cases heq
            · cases heq
        · -- taxStep gave Sum.inr r1
          split at h
          · -- rentStep produced Sum.inl out
            next out heq =>
              split at heq
              · split at heq
                · split at heq
                  · split at heq
                    · split at heq
                      · next hres =>
                          simp only [Sum.inl.injEq] at heq
                          simp only [Option.some.injEq] at h
                          rw [← heq] at h
                          simp only [Prod.mk.injEq] at h
                          rw [← h.2]
                          exact pendingInv_advance _
                            (pendingInv_handleBankruptcy_true _ _ hres)
                      · cases heq
                    · cases heq
                  · cases heq
                · cases heq
              · cases heq
          · -- rentStep gave Sum.inr r2
            split at h
            · split at h
              · simp only [Option.some.injEq, Prod.mk.injEq] at h
                rw [← h.2]
                intro hph
                cases hph
              · simp only [Option.some.injEq] at h
                have h2 : _ = r' := congrArg Prod.snd h
                rw [← h2]
                exact pendingInv_landingTail _ _ _
            · simp only [Option.some.injEq] at h
              have h2 : _ = r' := congrArg Prod.snd h
              rw [← h2]
              exact pendingInv_landingTail _ _ _

theorem pendingInv_applyCard (r : Room) (i : Nat) (card : Card) (ds : Int)
    (res : StepResult) (r' : Room)
    (h : applyCardEffectAfterAck r i card ds = some (res, r')) : PendingInv r' := by
  unfold applyCardEffectAfterAck at h
  split at h
  · simp only [Option.some.injEq, Prod.mk.injEq] at h
    rw [← h.2]
    exact pendingInv_advance _ (fun _ => rfl)
  · split at h
    · cases h
    · simp only [] at h
      split at h
      · simp only [Option.some.injEq, Prod.mk.injEq] at h
        rw [← h.2]
        exact pendingInv_checkWinner _ (pendingInv_advance _ (fun _ => rfl))
      · simp only [Option.some.injEq, Prod.mk.injEq] at h
        rw [← h.2]
        exact pendingInv_advance _ (fun _ => rfl)
  · simp only [Option.some.injEq, Prod.mk.injEq] at h
    rw [← h.2]
    exact pendingInv_checkWinner _ (pendingInv_advance _ (fun _ => rfl))
  · split at h
    · cases h
    · simp only [] at h
      split at h
      · cases h
      · exact pendingInv_resolveLanding _ _ _ _ _ _ h
  · split at h
    · cases h
    · simp only [] at h
      split at h
      · cases h
      · exact pendingInv_resolveLanding _ _ _ _ _ _ h

theorem pendingInv_maybePrompt (r : Room) (i : Nat) (h : PendingInv r) :
    PendingInv (maybePromptJail r i).2 := by
  unfold maybePromptJail
  split
  · exact h
  · split
    · exact h
    · intro hph
      cases hph

theorem pendingInv_rollMove (r : Room) (i d1 d2 : Nat) (resp : Resp) (r' : Room)
    (h : rollMove r i d1 d2 = some (resp, r')) : PendingInv r' := by
  unfold rollMove at h
  split at h
  · cases h
  · simp only [] at h
    split at h
    · cases h
    · split at h
      · cases h
      · next res0 r3 heq =>
          simp only [Option.some.injEq, Prod.mk.injEq] at h
          rw [← h.2]
          exact pendingInv_resolveLanding _ _ _ _ _ _ heq

theorem pendingInv_rollDice (r : Room) (sid : String) (d1 d2 : Nat) (resp : Resp)
    (r' : Room) (hInv : PendingInv r) (h : rollDice r sid d1 d2 = some (resp, r')) :
    PendingInv r' := by
  unfold rollDice at h
  split at h
  · simp only [Option.some.injEq, Prod.mk.injEq] at h
    rw [← h.2]
    exact hInv
  · split at h
    · simp only [Option.some.injEq, Prod.mk.injEq] at h
      rw [← h.2]
      exact hInv
    · simp only [] at h
      split at h
      · simp only [Option.some.injEq, Prod.mk.injEq] at h
        rw [← h.2]
        exact pendingInv_ensure _ hInv
      · split at h
        · simp only [Option.some.injEq, Prod.mk.injEq] at h
          rw [← h.2]
          exact pendingInv_ensure _ hInv
        · split at h
          · simp only [Option.some.injEq, Prod.mk.injEq] at h
            rw [← h.2]
            exact pendingInv_ensure _ hInv
          · split at h
            · simp only [Option.some.injEq, Prod.mk.injEq] at h
              rw [← h.2]
              exact pendingInv_ensure _ hInv
            · split at h
              · simp only [Option.some.injEq, Prod.mk.injEq] at h
                rw [← h.2]
                exact pendingInv_ensure _ hInv
              · split at h
                · split at h
                  · simp only [Option.some.injEq, Prod.mk.injEq] at h
                    rw [← h.2]
                    exact pendingInv_maybePrompt _ _ (pendingInv_ensure _ hInv)
                  · exact pendingInv_rollMove _ _ _ _ _ _ h
                · exact pendingInv_rollMove _ _ _ _ _ _ h

theorem pendingInv_jailChoice (r : Room) (sid : String) (pay : Bool) (resp : Resp)
    (r' : Room) (hInv : PendingInv r) (h : jailChoice r sid pay = (resp, r')) :
    PendingInv r' := by
  unfold jailChoice at h
  split at h
  · simp only [Prod.mk.injEq] at h
    rw [← h.2]
    exact hInv
  · split at h
    · simp only [Prod.mk.injEq] at h
      rw [← h.2]
      exact hInv
    · simp only [] at h
      split at h
      · simp only [Prod.mk.injEq] at h
        rw [← h.2]
        exact pendingInv_ensure _ hInv
      · split at h
        · simp only [Prod.mk.injEq] at h
          rw [← h.2]
          exact pendingInv_ensure _ hInv
        · split at h
          · simp only [Prod.mk.injEq] at h
            rw [← h.2]
            exact pendingInv_ensure _ hInv
          · split at h
            · simp only [Prod.mk.injEq] at h
              rw [← h.2]
              exact pendingInv_ensure _ hInv
            · split at h
              · split at h
                · simp only [Prod.mk.injEq] at h
                  rw [← h.2]
                  exact pendingInv_ensure _ hInv
                · split at h
                  · split at h
                    · split at h
                      · simp only [Prod.mk.injEq] at h
                        rw [← h.2]
                        exact pendingInv_checkWinner _ (pendingInv_advance _
                          (pendingInv_handleBankruptcy _ _ (fun _ => rfl)))
                      · simp only [Prod.mk.injEq] at h
                        rw [← h.2]
                        exact pendingInv_handleBankruptcy _ _ (fun _ => rfl)
                    · split at h
                      · simp only [Prod.mk.injEq] at h
                        rw [← h.2]
                        exact pendingInv_checkWinner _ (pendingInv_advance _
                          (pendingInv_handleBankruptcy _ _ (fun _ => rfl)))
                      · simp only [Prod.mk.injEq] at h
                        rw [← h.2]
                        exact pendingInv_handleBankruptcy _ _ (fun _ => rfl)
                  · simp only [Prod.mk.injEq] at h
                    rw [← h.2]
                    exact pendingInv_advance _ (fun _ => rfl)
              · simp only [Prod.mk.injEq] at h
                rw [← h.2]
                exact pendingInv_ensure _ hInv

theorem pendingInv_buyTile (r : Room) (sid : String) (resp : Resp) (r' : Room)
    (hInv : PendingInv r) (h : buyTile r sid = (resp, r')) : PendingInv r' := by
  unfold buyTile at h
  split at h
  · simp only [Prod.mk.injEq] at h
    rw [← h.2]
    exact hInv
  · split at h
    · simp only [Prod.mk.injEq] at h
      rw [← h.2]
      exact hInv
    · simp only [] at h
      split at h
      · simp only [Prod.mk.injEq] at h
        rw [← h.2]
        exact pendingInv_ensure _ hInv
      · split at h
        · simp only [Prod.mk.injEq] at h
          rw [← h.2]
          exact pendingInv_ensure _ hInv
        · split at h
          · simp only [Prod.mk.injEq] at h
            rw [← h.2]
            exact pendingInv_ensure _ hInv
          · split at h
            · simp only [Prod.mk.injEq] at h
              rw [← h.2]
              exact pendingInv_ensure _ hInv
            · split at h
              · split at h
                · simp only [Prod.mk.injEq] at h
                  rw [← h.2]
                  exact pendingInv_ensure _ hInv
                · split at h
                  · simp only [Prod.mk.injEq] at h
                    rw [← h.2]
                    exact pendingInv_ensure _ hInv
                  · split at h
                    · simp only [Prod.mk.injEq] at h
                      rw [← h.2]
                      exact pendingInv_ensure _ hInv
                    · split at h
                      · simp only [Prod.mk.injEq] at h
                        rw [← h.2]
                        exact pendingInv_ensure _ hInv
                      · split at h
                        · simp only [Prod.mk.injEq] at h
                          rw [← h.2]
                          exact pendingInv_ensure _ hInv
                        · split at h
                          · simp only [Prod.mk.injEq] at h
                            rw [← h.2]
                            exact pendingInv_ensure _ hInv
                          · simp only [Prod.mk.injEq] at h
                            rw [← h.2]
                            exact pendingInv_advance _ (fun _ => rfl)
              · simp only [Prod.mk.injEq] at h
                rw [← h.2]
                exact pendingInv_ensure _ hInv

theorem pendingInv_skipBuy (r : Room) (sid : String) (resp : Resp) (r' : Room)
    (hInv : PendingInv r) (h : skipBuy r sid = (resp, r')) : PendingInv r' := by
  unfold skipBuy at h
  split at h
  · simp only [Prod.mk.injEq] at h
    rw [← h.2]
    exact hInv
  · split at h
    · simp only [Prod.mk.injEq] at h
      rw [← h.2]
      exact hInv
    · simp only [] at h
      split at h
      · simp only [Prod.mk.injEq] at h
        rw [← h.2]
        exact pendingInv_ensure _ hInv
      · split at h
        · simp only [Prod.mk.injEq] at h
          rw [← h.2]
          exact pendingInv_ensure _ hInv
        · split at h
          · simp only [Prod.mk.injEq] at h
            rw [← h.2]
            exact pendingInv_ensure _ hInv
          · split at h
            · simp only [Prod.mk.injEq] at h
              rw [← h.2]
              exact pendingInv_ensure _ hInv
            · split at h
              · split at h
                · simp only [Prod.mk.injEq] at h
                  rw [← h.2]
                  exact pendingInv_ensure _ hInv
                · simp only [Prod.mk.injEq] at h
                  rw [← h.2]
                  exact pendingInv_advance _ (fun _ => rfl)
              · simp only [Prod.mk.injEq] at h
                rw [← h.2]
                exact pendingInv_ensure _ hInv

theorem pendingInv_cardAck (r : Room) (sid : String) (resp : Resp) (r' : Room)
    (hInv : PendingInv r) (h : cardAck r sid = some (resp, r')) : PendingInv r' := by
  unfold cardAck at h
  split at h
  · simp only [Option.some.injEq, Prod.mk.injEq] at h
    rw [← h.2]
    exact hInv
  · split at h
    · simp only [Option.some.injEq, Prod.mk.injEq] at h
      rw [← h.2]
      exact hInv
    · simp only [] at h
      split at h
      · simp only [Option.some.injEq, Prod.mk.injEq] at h
        rw [← h.2]
        exact pendingInv_ensure _ hInv
      · split at h
        · simp only [Option.some.injEq, Prod.mk.injEq] at h
          rw [← h.2]
          exact pendingInv_ensure _ hInv
        · split at h
          · simp only [Option.some.injEq, Prod.mk.injEq] at h
            rw [← h.2]
            exact pendingInv_ensure _ hInv
          · split at h
            · simp only [Option.some.injEq, Prod.mk.injEq] at h
              rw [← h.2]
              exact pendingInv_ensure _ hInv
            · split at h
              · split at h
                · simp only [Option.some.injEq, Prod.mk.injEq] at h
                  rw [← h.2]
                  exact pendingInv_ensure _ hInv
                · split at h
                  · cases h
                  · next res0 r3 heq =>
                      simp only [Option.some.injEq, Prod.mk.injEq] at h
                      rw [← h.2]
                      exact pendingInv_applyCard _ _ _ _ _ _ heq
              · simp only [Option.some.injEq, Prod.mk.injEq] at h
                rw [← h.2]
                exact pendingInv_ensure _ hInv

theorem pendingInv_rebind (r : Room) (o n : String) (h : PendingInv r) :
    PendingInv (rebindPlayerId r o n) := by
  unfold rebindPlayerId
  split
  · exact h
  · intro hph
    have hp := h hph
    simp [hp]

theorem pendingInv_joinRoom (r : Room) (nickname sid : String) (resp : Resp)
    (r' : Room) (hInv : PendingInv r) (h : joinRoom r nickname sid = (resp, r')) :
    PendingInv r' := by
  unfold joinRoom at h
  split at h
  · split at h
    · simp only [Prod.mk.injEq] at h
      rw [← h.2]
      exact hInv
    · simp only [] at h
      split at h
      · next j heq =>
          simp only [Prod.mk.injEq] at h
          rw [← h.2]
          exact pendingInv_rebind _ _ _ hInv
      · simp only [Prod.mk.injEq] at h
        rw [← h.2]
        exact pendingInv_rebind _ _ _ hInv
  · split at h
    · simp only [Prod.mk.injEq] at h
      rw [← h.2]
      exact hInv
    · split at h
      · simp only [Prod.mk.injEq] at h
        rw [← h.2]
        exact hInv
      · split at h
        · simp only [Prod.mk.injEq] at h
          rw [← h.2]
          exact hInv
        · simp only [Prod.mk.injEq] at h
          rw [← h.2]
          exact hInv

theorem pendingInv_setReady (r : Room) (sid : String) (ready : Bool) (resp : Resp)
    (r' : Room) (hInv : PendingInv r) (h : setReady r sid ready = (resp, r')) :
    PendingInv r' := by
  unfold setReady at h
  split at h
  · simp only [Prod.mk.injEq] at h
    rw [← h.2]
    exact hInv
  · split at h
    · simp only [Prod.mk.injEq] at h
      rw [← h.2]
      exact hInv
    · simp only [Prod.mk.injEq] at h
      rw [← h.2]
      exact hInv

theorem pendingInv_startGame (r : Room) (sid : String) (cd comd : List Card)
    (resp : Resp) (r' : Room) (hInv : PendingInv r)
    (h : startGame r sid cd comd = (resp, r')) : PendingInv r' := by
  unfold startGame at h
  split at h
  · simp only [Prod.mk.injEq] at h
    rw [← h.2]
    exact hInv
  · split at h
    · simp only [Prod.mk.injEq] at h
      rw [← h.2]
      exact hInv
    · split at h
      · simp only [Prod.mk.injEq] at h
        rw [← h.2]
        exact hInv
      · simp only [Prod.mk.injEq] at h
        rw [← h.2]
        exact pendingInv_ensure _ (fun _ => rfl)

theorem pendingInv_restartGame (r : Room) (sid : String) (cd comd : List Card)
    (resp : Resp) (r' : Room) (hInv : PendingInv r)
    (h : restartGame r sid cd comd = (resp, r')) : PendingInv r' := by
  unfold restartGame at h
  split at h
  · simp only [Prod.mk.injEq] at h
    rw [← h.2]
    exact hInv
  · split at h
    · simp only [Prod.mk.injEq] at h
      rw [← h.2]
      exact hInv
    · simp only [Prod.mk.injEq] at h
      rw [← h.2]
      exact pendingInv_ensure _ (fun _ => rfl)

theorem pendingInv_disconnect (r : Room) (sid : String) (now : Nat) (r' : Room)
    (hInv : PendingInv r) (h : disconnect r sid now = some r') : PendingInv r' := by
  unfold disconnect at h
  split at h
  · simp only [Option.some.injEq] at h
    rw [← h]
    exact hInv
  · split at h
    · simp only [] at h
      split at h
      · cases h
      · simp only [Option.some.injEq] at h
        rw [← h]
        split
        · split
          · exact hInv
          · exact hInv
        · exact hInv
    · simp only [] at h
      split at h
      · split at h
        · simp only [Option.some.injEq] at h
          rw [← h]
          exact pendingInv_advance _ (fun _ => rfl)
        · simp only [Option.some.injEq] at h
          rw [← h]
          exact pendingInv_ensure _ hInv
      · simp only [Option.some.injEq] at h
        rw [← h]
        exact pendingInv_ensure _ hInv

theorem pendingInv_createRoom (sid nickname : String) (cd comd : List Card) :
    PendingInv (createRoom sid nickname cd comd) :=
  fun _ => rfl

/-- C5: every room holds at most one pending action at a time (`pending` is
a single nullable field: two simultaneously present pending records are
equal), and the invariant "phase `awaiting_roll` implies no pending action"
is preserved by every intent handler of the server, including room creation
and the disconnect handler. -/
theorem pending_invariant_spec (r : Room) (hInv : PendingInv r) :
    (∀ pa pa', r.pending = some pa → r.pending = some pa' → pa = pa')
    ∧ (∀ sid d1 d2 resp r', rollDice r sid d1 d2 = some (resp, r') → PendingInv r')
    ∧ (∀ sid resp r', buyTile r sid = (resp, r') → PendingInv r')
    ∧ (∀ sid resp r', skipBuy r sid = (resp, r') → PendingInv r')
    ∧ (∀ sid pay resp r', jailChoice r sid pay = (resp, r') → PendingInv r')
    ∧ (∀ sid resp r', cardAck r sid = some (resp, r') → PendingInv r')
    ∧ (∀ nick sid resp r', joinRoom r nick sid = (resp, r') → PendingInv r')
    ∧ (∀ sid ready resp r', setReady r sid ready = (resp, r') → PendingInv r')
    ∧ (∀ sid cd comd resp r', startGame r sid cd comd = (resp, r') → PendingInv r')
    ∧ (∀ sid cd comd resp r', restartGame r sid cd comd = (resp, r') → PendingInv r')
    ∧ (∀ sid now r', disconnect r sid now = some r' → PendingInv r')
    ∧ (∀ sid nick cd comd, PendingInv (createRoom sid nick cd comd)) := by
  refine ⟨fun pa pa' h1 h2 => ?_,
          fun sid d1 d2 resp r' h => pendingInv_rollDice r sid d1 d2 resp r' hInv h,
          fun sid resp r' h => pendingInv_buyTile r sid resp r' hInv h,
          fun sid resp r' h => pendingInv_skipBuy r sid resp r' hInv h,
          fun sid pay resp r' h => pendingInv_jailChoice r sid pay resp r' hInv h,
          fun sid resp r' h => pendingInv_cardAck r sid resp r' hInv h,
          fun nick sid resp r' h => pendingInv_joinRoom r nick sid resp r' hInv h,
          fun sid ready resp r' h => pendingInv_setReady r sid ready resp r' hInv h,
          fun sid cd comd resp r' h => pendingInv_startGame r sid cd comd resp r' hInv h,
          fun sid cd comd resp r' h => pendingInv_restartGame r sid cd comd resp r' hInv h,
          fun sid now r' h => pendingInv_disconnect r sid now r' hInv h,
          fun sid nick cd comd => pendingInv_createRoom sid nick cd comd⟩
  rw [h1] at h2
  exact Option.some_inj.mp h2

/-- Witness for C5: in the concrete jail room the invariant holds before and
after a paid jail choice. -/
theorem pending_invariant_spec_witness :
    PendingInv (jailChoice c3room "A" true).2 :=
  (pending_invariant_spec c3room (by intro hph; cases hph)).2.2.2.2.1 "A" true
    (jailChoice c3room "A" true).1 (jailChoice c3room "A" true).2 rfl

-- ===== C10: disconnect while playing =====

theorem ensureCurrentIsActive_board (r : Room) :
    (ensureCurrentIsActive r).board = r.board := by
  unfold ensureCurrentIsActive; split <;> rfl

theorem advanceTurn_board (r : Room) : (advanceTurn r).board = r.board := by
  unfold advanceTurn; split
  · rfl
  · rw [ensureCurrentIsActive_board]

/-- C10: a disconnect while the room is playing marks the player as
disconnected (flag plus timestamp) while keeping their balance, position and
owned tiles (all other player fields are untouched); no other player and no
board tile changes; and if the disconnecting player was the current player,
pending is cleared, the phase is reset to `awaiting_roll` and the turn
advances to a player that is neither bankrupt nor disconnected (provided one
exists) — in particular the room is never left waiting on the disconnected
player. -/
theorem disconnect_playing_spec (r : Room) (sid : String) (now : Nat) (d : Nat)
    (pl : Player) (hstat : r.status = Status.playing)
    (hd : r.players[d]? = some pl) (hid : pl.id = sid)
    (hothers : ∀ k, k ≠ d → ∀ b, r.players[k]? = some b → b.id ≠ sid) :
    ∃ r', disconnect r sid now = some r'
      ∧ r'.players[d]? = some { pl with isDisconnected := true,
                                        disconnectedAt := some now }
      ∧ (∀ j, j ≠ d → r'.players[j]? = r.players[j]?)
      ∧ r'.board = r.board
      ∧ (r.currentPlayerIndex = d →
          r'.phase = Phase.awaiting_roll ∧ r'.pending = none
          ∧ ∀ (j : Nat) (q : Player), r.players[j]? = some q → j ≠ d →
              q.isBankrupt = false → q.isDisconnected = false →
              ∃ p, r'.players[r'.currentPlayerIndex]? = some p
                 ∧ p.isBankrupt = false ∧ p.isDisconnected = false ∧ p.id ≠ sid) := by
  have hfind : findIdxP (fun p => decide (p.id = sid)) r.players = some d :=
    findIdxP_first _ _ d pl hd (by simp [hid])
      (fun k hk b hb => by simp [hothers k (by omega) b hb])
  have hnw : ¬ r.status = Status.waiting := by rw [hstat]; simp
  have hmark : (markDisconnected r d now).players
      = updIdx r.players d (fun p =>
          { p with isDisconnected := true, disconnectedAt := some now }) := rfl
  by_cases hc : r.currentPlayerIndex = d
  · -- the disconnecting player was current
    have hcur1 : (markDisconnected r d now).players[r.currentPlayerIndex]?
        = some { pl with isDisconnected := true, disconnectedAt := some now } := by
      rw [hmark, hc, getIdx_updIdx_self, hd]
      rfl
    have hdisc : disconnect r sid now = some (advanceTurn
        { markDisconnected r d now with
            phase := Phase.awaiting_roll, pending := none }) := by
      unfold disconnect
      rw [hfind]
      simp only [if_neg hnw]
      rw [show (updIdx r.players d fun p =>
            { p with isDisconnected := true,
                     disconnectedAt := some now })[r.currentPlayerIndex]?
            = some { pl with isDisconnected := true, disconnectedAt := some now }
          from hmark ▸ hcur1]
      simp only [hid, if_pos rfl, Option.some.injEq]
      rfl
    refine ⟨_, hdisc, ?_, ?_, ?_, ?_⟩
    · rw [advanceTurn_players]
      show (markDisconnected r d now).players[d]? = _
      rw [hmark, getIdx_updIdx_self, hd]
      rfl
    · intro j hj
      rw [advanceTurn_players]
      show (markDisconnected r d now).players[j]? = _
      rw [hmark, getIdx_updIdx_ne _ _ _ _ (fun he => hj he.symm)]
    · rw [advanceTurn_board]
      rfl
    · intro _
      refine ⟨by rw [advanceTurn_phase], by rw [advanceTurn_pending], ?_⟩
      intro j q hq hj hqb hqd
      have hq1 : ({ markDisconnected r d now with
          phase := Phase.awaiting_roll, pending := none } : Room).players[j]?
          = some q := by
        show (markDisconnected r d now).players[j]? = some q
        rw [hmark, getIdx_updIdx_ne _ _ _ _ (fun he => hj he.symm)]
        exact hq
      obtain ⟨hlt, hact, hps⟩ := advanceTurn_lands_active
        { markDisconnected r d now with
            phase := Phase.awaiting_roll, pending := none } j q hq1 hqb hqd
      obtain ⟨p, hp⟩ : ∃ p, ({ markDisconnected r d now with
          phase := Phase.awaiting_roll, pending := none } : Room).players[(advanceTurn
            { markDisconnected r d now with
                phase := Phase.awaiting_roll, pending := none }).currentPlayerIndex]?
          = some p := by
        rw [List.getElem?_eq_getElem hlt]
        exact ⟨_, rfl⟩
      have hact2 : (p.isBankrupt || p.isDisconnected) = false := by
        have h2 := hact
        simp only [inactiveAt] at h2
        rw [hp] at h2
        exact h2
      rw [Bool.or_eq_false_iff] at hact2
      have hpm : (markDisconnected r d now).players[(advanceTurn
          { markDisconnected r d now with
              phase := Phase.awaiting_roll, pending := none }).currentPlayerIndex]?
          = some p := hp
      have hfd : (advanceTurn
          { markDisconnected r d now with
              phase := Phase.awaiting_roll, pending := none }).currentPlayerIndex ≠ d := by
        intro he
        rw [he, hmark, getIdx_updIdx_self, hd] at hpm
        have hpd : p.isDisconnected = true := by
          have hinj := Option.some_inj.mp hpm
          rw [← hinj]
        rw [hpd] at hact2
        exact absurd hact2.2 (by simp)
      have hpr : r.players[(advanceTurn
          { markDisconnected r d now with
              phase := Phase.awaiting_roll, pending := none }).currentPlayerIndex]?
          = some p := by
        rw [← getIdx_updIdx_ne r.players d _ (fun p =>
          { p with isDisconnected := true, disconnectedAt := some now })
          (fun he => hfd he.symm)]
        exact hpm
      refine ⟨p, ?_, hact2.1, hact2.2, hothers _ hfd p hpr⟩
      rw [hps]
      exact hp
  · -- the disconnecting player was not current
    have hdisc : ∃ r'', disconnect r sid now = some r''
        ∧ r''.players = (markDisconnected r d now).players
        ∧ r''.board = r.board := by
      unfold disconnect
      rw [hfind]
      simp only [if_neg hnw]
      rcases hx : r.players[r.currentPlayerIndex]? with _ | cur
      · rw [show (updIdx r.players d fun p =>
            { p with isDisconnected := true,
                     disconnectedAt := some now })[r.currentPlayerIndex]? = none by
          rw [getIdx_updIdx_ne _ _ _ _ (fun he => hc he.symm)]; exact hx]
        exact ⟨_, rfl, by rw [ensureCurrentIsActive_players]; rfl,
               by rw [ensureCurrentIsActive_board]⟩
      · rw [show (updIdx r.players d fun p =>
            { p with isDisconnected := true,
                     disconnectedAt := some now })[r.currentPlayerIndex]? = some cur by
          rw [getIdx_updIdx_ne _ _ _ _ (fun he => hc he.symm)]; exact hx]
        have hcid : ¬ cur.id = sid := hothers r.currentPlayerIndex hc cur hx
        simp only [if_neg hcid]
        exact ⟨_, rfl, by rw [ensureCurrentIsActive_players]; rfl,
               by rw [ensureCurrentIsActive_board]⟩
    obtain ⟨r'', hr1, hr2, hr3⟩ := hdisc
    refine ⟨r'', hr1, ?_, ?_, hr3, fun hcd => absurd hcd hc⟩
    · rw [hr2, hmark, getIdx_updIdx_self, hd]
      rfl
    · intro j hj
      rw [hr2, hmark, getIdx_updIdx_ne _ _ _ _ (fun he => hj he.symm)]

/-- Witness for C10: the current player "A" of `wC10room` disconnects; the
marking, frame and turn-advancement conclusions hold with "B" available. -/
theorem disconnect_playing_spec_witness :
    ∃ r', disconnect wC10room "A" 123 = some r'
      ∧ r'.players[0]? = some { { createPlayer "A" "Ala" "blue" with
            position := 1, balance := 900, properties := [3] } with
            isDisconnected := true, disconnectedAt := some 123 }
      ∧ (∀ j, j ≠ 0 → r'.players[j]? = wC10room.players[j]?)
      ∧ r'.board = wC10room.board
      ∧ (wC10room.currentPlayerIndex = 0 →
          r'.phase = Phase.awaiting_roll ∧ r'.pending = none
          ∧ ∀ (j : Nat) (q : Player), wC10room.players[j]? = some q → j ≠ 0 →
              q.isBankrupt = false → q.isDisconnected = false →
              ∃ p, r'.players[r'.currentPlayerIndex]? = some p
                 ∧ p.isBankrupt = false ∧ p.isDisconnected = false ∧ p.id ≠ "A") := by
  refine disconnect_playing_spec wC10room "A" 123 0
    { createPlayer "A" "Ala" "blue" with
        position := 1, balance := 900, properties := [3] }
    rfl (by decide) rfl ?_
  intro k hk b hb
  rcases k with _ | _ | k
  · exact absurd rfl hk
  · have hbb : b = createPlayer "B" "Bob" "red" := by
      have h2 := hb
      rw [show wC10room.players[1]? = some (createPlayer "B" "Bob" "red") by decide] at h2
      exact (Option.some_inj.mp h2).symm
    rw [hbb]
    decide
  · rw [show wC10room.players[k + 2]? = none from
      List.getElem?_eq_none (by
        rw [show wC10room.players.length = 2 by decide]
        omega)] at hb
    cases hb

-- ===== C8: rejoin-by-nickname =====

theorem lookupReady_eraseReady_self (m : List (String × Option Bool)) (k : String) :
    lookupReady (eraseReady m k) k = none := by
  induction m with
  | nil => rfl
  | cons e m' ih =>
    simp only [eraseReady, List.filter_cons] at ih ⊢
    by_cases he : e.1 = k
    · simpa [he] using ih
    · simpa [lookupReady, List.find?_cons, he] using ih

theorem lookupReady_eraseReady_ne (m : List (String × Option Bool)) (k k' : String)
    (h : k ≠ k') : lookupReady (eraseReady m k') k = lookupReady m k := by
  induction m with
  | nil => rfl
  | cons e m' ih =>
    simp only [eraseReady, List.filter_cons] at ih ⊢
    by_cases he : e.1 = k'
    · rw [if_neg (by simp [he])]
      rw [ih]
      have hek : ¬ e.1 = k := by rw [he]; exact fun hh => h hh.symm
      have hd : decide (e.1 = k) = false := by simp [hek]
      simp [lookupReady, List.find?_cons, hd]
    · rw [if_pos (by simp [he])]
      by_cases hek : e.1 = k
      · have hd : decide (e.1 = k) = true := by simp [hek]
        simp [lookupReady, List.find?_cons, hd]
      · have hd : decide (e.1 = k) = false := by simp [hek]
        simp only [lookupReady, List.find?_cons, hd]
        exact ih

theorem lookupReady_append (xs ys : List (String × Option Bool)) (k : String) :
    lookupReady (xs ++ ys) k =
      match lookupReady xs k with
      | some v => some v
      | none => lookupReady ys k := by
  induction xs with
  | nil => rfl
  | cons e xs' ih =>
    by_cases he : e.1 = k
    · have hd : decide (e.1 = k) = true := by simp [he]
      simp [lookupReady, List.cons_append, List.find?_cons, hd]
    · have hd : decide (e.1 = k) = false := by simp [he]
      simp only [lookupReady, List.cons_append, List.find?_cons, hd]
      exact ih

theorem lookupReady_setReadyKey_self (m : List (String × Option Bool)) (k : String)
    (v : Option Bool) : lookupReady (setReadyKey m k v) k = some v := by
  unfold setReadyKey
  rw [lookupReady_append, lookupReady_eraseReady_self]
  simp [lookupReady]

theorem lookupReady_setReadyKey_ne (m : List (String × Option Bool)) (k k' : String)
    (v : Option Bool) (h : k ≠ k') :
    lookupReady (setReadyKey m k' v) k = lookupReady m k := by
  unfold setReadyKey
  rw [lookupReady_append, lookupReady_eraseReady_ne _ _ _ h]
  rcases hx : lookupReady m k with _ | w
  · have h2 : ¬ k' = k := fun hh => h hh.symm
    simp [lookupReady, h2]
  · rfl

theorem rebind_players (r : Room) (o n : String) (ho : o ≠ "") (hn : n ≠ "") :
    (rebindPlayerId r o n).players
      = r.players.map (fun p => if p.id = o then { p with id := n } else p) := by
  unfold rebindPlayerId
  rw [if_neg (by simp [ho, hn])]

theorem rebind_hostId (r : Room) (o n : String) (ho : o ≠ "") (hn : n ≠ "") :
    (rebindPlayerId r o n).hostId = (if r.hostId = o then n else r.hostId) := by
  unfold rebindPlayerId
  rw [if_neg (by simp [ho, hn])]

theorem rebind_winnerId (r : Room) (o n : String) (ho : o ≠ "") (hn : n ≠ "") :
    (rebindPlayerId r o n).winnerId
      = (if r.winnerId = some o then some n else r.winnerId) := by
  unfold rebindPlayerId
  rw [if_neg (by simp [ho, hn])]

theorem rebind_readyById (r : Room) (o n : String) (ho : o ≠ "") (hn : n ≠ "") :
    (rebindPlayerId r o n).readyById
      = setReadyKey (eraseReady r.readyById o) n ((lookupReady r.readyById o).join) := by
  unfold rebindPlayerId
  rw [if_neg (by simp [ho, hn])]

theorem rebind_board (r : Room) (o n : String) (ho : o ≠ "") (hn : n ≠ "") :
    (rebindPlayerId r o n).board
      = r.board.map (fun t =>
          if t.ownerId = some o then { t with ownerId := some n } else t) := by
  unfold rebindPlayerId
  rw [if_neg (by simp [ho, hn])]

theorem rebind_pending (r : Room) (o n : String) (ho : o ≠ "") (hn : n ≠ "") :
    (rebindPlayerId r o n).pending
      = (match r.pending with
         | some pa => if pa.playerId = o then some (pa.withPlayerId n) else some pa
         | none => none) := by
  unfold rebindPlayerId
  rw [if_neg (by simp [ho, hn])]

/-- C8: a rejoin by nickname while the room is playing rebinds the player's
record to the new connection identifier and clears the disconnected
flag/timestamp, while leaving the player's balance, position, owned tiles
and jail state (and every other player) untouched; the host pointer, winner
pointer, ready-map key, board owner fields and pending-action player
reference are updated to the new identifier exactly where they referenced
the old one. -/
theorem joinRoom_rejoin_spec (r : Room) (nick sid : String) (i : Nat) (pl : Player)
    (hstat : r.status = Status.playing)
    (hpl : r.players[i]? = some pl) (hnick : pl.nickname = nick)
    (hnfirst : ∀ k, k < i → ∀ b, r.players[k]? = some b → b.nickname ≠ nick)
    (hothers : ∀ k, k ≠ i → ∀ b, r.players[k]? = some b → b.id ≠ pl.id)
    (hfresh : ∀ (k : Nat) (b : Player), r.players[k]? = some b → b.id ≠ sid)
    (hold : pl.id ≠ "") (hnew : sid ≠ "") :
    (joinRoom r nick sid).1 = Resp.ok none
    ∧ (joinRoom r nick sid).2.players[i]?
        = some { pl with id := sid, isDisconnected := false, disconnectedAt := none }
    ∧ (∀ j, j ≠ i → (joinRoom r nick sid).2.players[j]? = r.players[j]?)
    ∧ (joinRoom r nick sid).2.hostId = (if r.hostId = pl.id then sid else r.hostId)
    ∧ (joinRoom r nick sid).2.winnerId
        = (if r.winnerId = some pl.id then some sid else r.winnerId)
    ∧ lookupReady (joinRoom r nick sid).2.readyById sid
        = some ((lookupReady r.readyById pl.id).join)
    ∧ lookupReady (joinRoom r nick sid).2.readyById pl.id = none
    ∧ (∀ k : Nat, (joinRoom r nick sid).2.board[k]? = (r.board[k]?).map (fun t : Tile =>
          if t.ownerId = some pl.id then { t with ownerId := some sid } else t))
    ∧ (joinRoom r nick sid).2.pending = (match r.pending with
        | some pa => if pa.playerId = pl.id then some (pa.withPlayerId sid) else some pa
        | none => none) := by
  have hoid : pl.id ≠ sid := hfresh i pl hpl
  have hfind : r.players.find? (fun p => decide (p.nickname = nick)) = some pl :=
    find?_first _ _ i pl hpl (by simp [hnick])
      (fun k hk b hb => by simp [hnfirst k hk b hb])
  have hrp := rebind_players r pl.id sid hold hnew
  have hrpl : (rebindPlayerId r pl.id sid).players[i]? = some { pl with id := sid } := by
    rw [hrp, List.getElem?_map, hpl]
    simp
  have hrplne : ∀ j, j ≠ i →
      (rebindPlayerId r pl.id sid).players[j]? = r.players[j]? := by
    intro j hj
    rw [hrp, List.getElem?_map]
    rcases hx : r.players[j]? with _ | b
    · rfl
    · have hgb : (if b.id = pl.id then { b with id := sid } else b) = b := by
        rw [if_neg (hothers j hj b hx)]
      simp only [Option.map_some']
      rw [hgb]
  have hfIdx : findIdxP (fun p => decide (p.id = sid))
      (rebindPlayerId r pl.id sid).players = some i :=
    findIdxP_first _ _ i { pl with id := sid } hrpl (by simp)
      (fun k hk b hb => by
        rw [hrplne k (by omega)] at hb
        simp [hfresh k b hb])
  have hjoin : joinRoom r nick sid = (Resp.ok none,
      { rebindPlayerId r pl.id sid with
          players := updIdx (rebindPlayerId r pl.id sid).players i
            (fun p => { p with isDisconnected := false, disconnectedAt := none }) }) := by
    unfold joinRoom
    rw [if_pos (by rw [hstat]; simp), hfind]
    simp only []
    rw [hfIdx]
  refine ⟨by rw [hjoin], ?_, ?_, ?_, ?_, ?_, ?_, ?_, ?_⟩
  · rw [hjoin]
    show (updIdx (rebindPlayerId r pl.id sid).players i _)[i]? = _
    rw [getIdx_updIdx_self, hrpl]
    rfl
  · intro j hj
    rw [hjoin]
    show (updIdx (rebindPlayerId r pl.id sid).players i _)[j]? = _
    rw [getIdx_updIdx_ne _ _ _ _ (fun he => hj he.symm), hrplne j hj]
  · rw [hjoin]
    show (rebindPlayerId r pl.id sid).hostId = _
    rw [rebind_hostId r pl.id sid hold hnew]
  · rw [hjoin]
    show (rebindPlayerId r pl.id sid).winnerId = _
    rw [rebind_winnerId r pl.id sid hold hnew]
  · rw [hjoin]
    show lookupReady (rebindPlayerId r pl.id sid).readyById sid = _
    rw [rebind_readyById r pl.id sid hold hnew, lookupReady_setReadyKey_self]
  · rw [hjoin]
    show lookupReady (rebindPlayerId r pl.id sid).readyById pl.id = _
    rw [rebind_readyById r pl.id sid hold hnew,
        lookupReady_setReadyKey_ne _ _ _ _ hoid, lookupReady_eraseReady_self]
  · intro k
    rw [hjoin]
    show (rebindPlayerId r pl.id sid).board[k]? = _
    rw [rebind_board r pl.id sid hold hnew, List.getElem?_map]
  · rw [hjoin]
    show (rebindPlayerId r pl.id sid).pending = _
    rw [rebind_pending r pl.id sid hold hnew]

/-- Witness for C8: disconnected player "A" of `wC8room` rejoins under the
fresh socket id "A2"; game state is preserved and every reference rebinds. -/
theorem joinRoom_rejoin_spec_witness :
    (joinRoom wC8room "Ala" "A2").1 = Resp.ok none
    ∧ (joinRoom wC8room "Ala" "A2").2.players[0]?
        = some { createPlayer "A" "Ala" "blue" with
                   id := "A2", position := 1, balance := 1200, properties := [1],
                   inJail := true, jailTurnsLeft := 1,
                   isDisconnected := false, disconnectedAt := none }
    ∧ (∀ j, j ≠ 0 →
        (joinRoom wC8room "Ala" "A2").2.players[j]? = wC8room.players[j]?)
    ∧ (joinRoom wC8room "Ala" "A2").2.hostId
        = (if wC8room.hostId = "A" then "A2" else wC8room.hostId)
    ∧ (joinRoom wC8room "Ala" "A2").2.winnerId
        = (if wC8room.winnerId = some "A" then some "A2" else wC8room.winnerId)
    ∧ lookupReady (joinRoom wC8room "Ala" "A2").2.readyById "A2"
        = some ((lookupReady wC8room.readyById "A").join)
    ∧ lookupReady (joinRoom wC8room "Ala" "A2").2.readyById "A" = none
    ∧ (∀ k : Nat, (joinRoom wC8room "Ala" "A2").2.board[k]?
        = (wC8room.board[k]?).map (fun t : Tile =>
            if t.ownerId = some "A" then { t with ownerId := some "A2" } else t))
    ∧ (joinRoom wC8room "Ala" "A2").2.pending = (match wC8room.pending with
        | some pa => if pa.playerId = "A" then some (pa.withPlayerId "A2") else some pa
        | none => none) := by
  have hoth : ∀ k, k ≠ 0 → ∀ b, wC8room.players[k]? = some b →
      b.id ≠ ({ createPlayer "A" "Ala" "blue" with
        position := 1, balance := 1200, properties := [1], inJail := true,
        jailTurnsLeft := 1, isDisconnected := true,
        disconnectedAt := some 99 } : Player).id := by
    intro k hk b hb
    rcases k with _ | _ | k
    · exact absurd rfl hk
    · have h2 := hb
      rw [show wC8room.players[1]? = some (createPlayer "B" "Bob" "red") by decide] at h2
      rw [← Option.some_inj.mp h2]
      decide
    · rw [show wC8room.players[k + 2]? = none from
        List.getElem?_eq_none (by
          rw [show wC8room.players.length = 2 by decide]
          omega)] at hb
      cases hb
  have hfr : ∀ (k : Nat) (b : Player), wC8room.players[k]? = some b → b.id ≠ "A2" := by
    intro k b hb
    rcases k with _ | _ | k
    · have h2 := hb
      rw [show wC8room.players[0]? = some { createPlayer "A" "Ala" "blue" with
        position := 1, balance := 1200, properties := [1], inJail := true,
        jailTurnsLeft := 1, isDisconnected := true,
        disconnectedAt := some 99 } by decide] at h2
      rw [← Option.some_inj.mp h2]
      decide
    · have h2 := hb
      rw [show wC8room.players[1]? = some (createPlayer "B" "Bob" "red") by decide] at h2
      rw [← Option.some_inj.mp h2]
      decide
    · rw [show wC8room.players[k + 2]? = none from
        List.getElem?_eq_none (by
          rw [show wC8room.players.length = 2 by decide]
          omega)] at hb
      cases hb
  exact joinRoom_rejoin_spec wC8room "Ala" "A2" 0
    { createPlayer "A" "Ala" "blue" with
        position := 1, balance := 1200, properties := [1], inJail := true,
        jailTurnsLeft := 1, isDisconnected := true, disconnectedAt := some 99 }
    rfl (by decide) rfl (fun k hk b hb => absurd hk (Nat.not_lt_zero k))
    hoth hfr (by decide) (by decide)

-- ===== C2: bankruptcy invariant =====

theorem mem_of_getIdx {α : Type} (ps : List α) (i : Nat) (a : α)
    (h : ps[i]? = some a) : a ∈ ps := by
  obtain ⟨hlt, heq⟩ := List.getElem?_eq_some.mp h
  exact heq ▸ List.getElem_mem hlt

theorem mem_updIdx {α : Type} (ps : List α) (i : Nat) (f : α → α) (q : α)
    (h : q ∈ updIdx ps i f) : q ∈ ps ∨ ∃ p, ps[i]? = some p ∧ q = f p := by
  induction ps generalizing i with
  | nil => cases h
  | cons a as ih =>
    cases i with
    | zero =>
      rw [show updIdx (a :: as) 0 f = f a :: as from rfl, List.mem_cons] at h
      rcases h with h | h
      · exact Or.inr ⟨a, by simp, h⟩
      · exact Or.inl (List.mem_cons_of_mem _ h)
    | succ n =>
      rw [show updIdx (a :: as) (n + 1) f = a :: updIdx as n f from rfl,
        List.mem_cons] at h
      rcases h with h | h
      · exact Or.inl (h ▸ List.mem_cons_self _ _)
      · rcases ih n h with h2 | ⟨p, hp, hq⟩
        · exact Or.inl (List.mem_cons_of_mem _ h2)
        · exact Or.inr ⟨p, by simpa using hp, hq⟩

theorem mem_updFirstById (ps : List Player) (pid : String) (f : Player → Player)
    (q : Player) (h : q ∈ updFirstById ps pid f) :
    q ∈ ps ∨ ∃ p, p ∈ ps ∧ p.id = pid ∧ q = f p := by
  induction ps with
  | nil => cases h
  | cons a as ih =>
    unfold updFirstById at h
    split at h
    · next ha =>
        rw [List.mem_cons] at h
        rcases h with h | h
        · exact Or.inr ⟨a, List.mem_cons_self _ _, ha, h⟩
        · exact Or.inl (List.mem_cons_of_mem _ h)
    · rw [List.mem_cons] at h
      rcases h with h | h
      · exact Or.inl (h ▸ List.mem_cons_self _ _)
      · rcases ih h with h2 | ⟨p, hp, hid, hq⟩
        · exact Or.inl (List.mem_cons_of_mem _ h2)
        · exact Or.inr ⟨p, List.mem_cons_of_mem _ hp, hid, hq⟩

theorem getIdx_updFirstById (ps : List Player) (pid : String) (f : Player → Player)
    (j : Nat) :
    (updFirstById ps pid f)[j]? = ps[j]?
    ∨ ∃ p, ps[j]? = some p ∧ (updFirstById ps pid f)[j]? = some (f p) := by
  induction ps generalizing j with
  | nil => exact Or.inl rfl
  | cons a as ih =>
    unfold updFirstById
    split
    · cases j with
      | zero => exact Or.inr ⟨a, by simp, by simp⟩
      | succ n => exact Or.inl (by simp)
    · cases j with
      | zero => exact Or.inl (by simp)
      | succ n =>
        rcases ih n with h | ⟨p, hp, hq⟩
        · exact Or.inl (by simpa using h)
        · exact Or.inr ⟨p, by simpa using hp, by simpa using hq⟩

theorem checkWinner_players (r : Room) : (checkWinner r).players = r.players := by
  unfold checkWinner
  rcases getActivePlayers r with _ | ⟨a, _ | ⟨b, t⟩⟩ <;> rfl

theorem checkWinner_board (r : Room) : (checkWinner r).board = r.board := by
  unfold checkWinner
  rcases getActivePlayers r with _ | ⟨a, _ | ⟨b, t⟩⟩ <;> rfl

theorem drawCard_players (r : Room) (dt : DeckType) :
    (drawCard r dt).2.players = r.players := by
  unfold drawCard
  simp only []
  split <;> split <;> rfl

theorem drawCard_board (r : Room) (dt : DeckType) :
    (drawCard r dt).2.board = r.board := by
  unfold drawCard
  simp only []
  split <;> split <;> rfl

theorem landingTail_players (r : Room) (tile : Tile) (pid : String) :
    (landingTail r tile pid).2.players = r.players := by
  unfold landingTail
  split
  · rfl
  · rw [advanceTurn_players]

theorem landingTail_board (r : Room) (tile : Tile) (pid : String) :
    (landingTail r tile pid).2.board = r.board := by
  unfold landingTail
  split
  · rfl
  · rw [advanceTurn_board]

theorem inv_ensure (r : Room) (h : BankruptInv r) :
    BankruptInv (ensureCurrentIsActive r) := by
  unfold BankruptInv
  rw [ensureCurrentIsActive_players, ensureCurrentIsActive_board]
  exact h

theorem inv_advance (r : Room) (h : BankruptInv r) : BankruptInv (advanceTurn r) := by
  unfold BankruptInv
  rw [advanceTurn_players, advanceTurn_board]
  exact h

theorem inv_checkWinner (r : Room) (h : BankruptInv r) :
    BankruptInv (checkWinner r) := by
  unfold BankruptInv
  rw [checkWinner_players, checkWinner_board]
  exact h

theorem invP_updIdx_preserve (ps : List Player) (bd : List Tile) (i : Nat)
    (f : Player → Player) (hinv : BankruptInvP ps bd)
    (hf : ∀ p : Player, (f p).id = p.id ∧ (f p).balance = p.balance
          ∧ (f p).properties = p.properties ∧ (f p).isBankrupt = p.isBankrupt) :
    BankruptInvP (updIdx ps i f) bd := by
  intro q hq hqb
  rcases mem_updIdx ps i f q hq with h | ⟨p, hp, rfl⟩
  · exact hinv q h hqb
  · obtain ⟨hid, hbal, hprops, hflag⟩ := hf p
    have hpb : p.isBankrupt = true := by rw [← hflag]; exact hqb
    obtain ⟨h1, h2, h3⟩ := hinv p (mem_of_getIdx _ _ _ hp) hpb
    refine ⟨by rw [hbal, h1], by rw [hprops, h2], ?_⟩
    intro t ht
    rw [hid]
    exact h3 t ht

theorem invP_updIdx_nonbankrupt (ps : List Player) (bd : List Tile) (i : Nat)
    (f : Player → Player) (cp : Player) (hinv : BankruptInvP ps bd)
    (hcp : ps[i]? = some cp) (hb : cp.isBankrupt = false)
    (hfb : (f cp).isBankrupt = false) :
    BankruptInvP (updIdx ps i f) bd := by
  intro q hq hqb
  rcases mem_updIdx ps i f q hq with h | ⟨p, hp, rfl⟩
  · exact hinv q h hqb
  · rw [hcp] at hp
    obtain rfl := Option.some_inj.mp hp
    rw [hfb] at hqb
    cases hqb

theorem invP_updFirstById_nonbankrupt (ps : List Player) (bd : List Tile)
    (pid : String) (f : Player → Player) (hinv : BankruptInvP ps bd)
    (hnb : ∀ p, p ∈ ps → p.id = pid → p.isBankrupt = false)
    (hf : ∀ p : Player, (f p).isBankrupt = p.isBankrupt) :
    BankruptInvP (updFirstById ps pid f) bd := by
  intro q hq hqb
  rcases mem_updFirstById ps pid f q hq with h | ⟨p, hp, hid, rfl⟩
  · exact hinv q h hqb
  · rw [hf p, hnb p hp hid] at hqb
    cases hqb

theorem invP_board_setOwner (ps : List Player) (bd : List Tile) (k : Nat)
    (cid : String) (hinv : BankruptInvP ps bd)
    (hno : ∀ p ∈ ps, p.isBankrupt = true → p.id ≠ cid) :
    BankruptInvP ps (updIdx bd k fun t => { t with ownerId := some cid }) := by
  intro q hq hqb
  obtain ⟨h1, h2, h3⟩ := hinv q hq hqb
  refine ⟨h1, h2, ?_⟩
  intro t' ht'
  rcases mem_updIdx bd k _ t' ht' with h | ⟨t, ht, rfl⟩
  · exact h3 t' h
  · intro hc
    exact hno q hq hqb (Option.some_inj.mp hc).symm

theorem mono_refl (ps : List Player) : bankruptMono ps ps :=
  fun _ p h hb => ⟨p, h, hb⟩

theorem mono_trans {a b c : List Player} (h1 : bankruptMono a b)
    (h2 : bankruptMono b c) : bankruptMono a c := by
  intro i p hp hb
  obtain ⟨q, hq, hqb⟩ := h1 i p hp hb
  exact h2 i q hq hqb

theorem mono_updIdx (ps : List Player) (i : Nat) (f : Player → Player)
    (hf : ∀ p : Player, p.isBankrupt = true → (f p).isBankrupt = true) :
    bankruptMono ps (updIdx ps i f) := by
  intro j p hj hb
  by_cases hij : i = j
  · subst hij
    exact ⟨f p, by rw [getIdx_updIdx_self, hj]; rfl, hf p hb⟩
  · exact ⟨p, by rw [getIdx_updIdx_ne _ _ _ _ hij]; exact hj, hb⟩

theorem mono_updFirstById (ps : List Player) (pid : String) (f : Player → Player)
    (hf : ∀ p : Player, p.isBankrupt = true → (f p).isBankrupt = true) :
    bankruptMono ps (updFirstById ps pid f) := by
  intro j p hj hb
  rcases getIdx_updFirstById ps pid f j with h | ⟨p2, hp2, hq⟩
  · exact ⟨p, by rw [h]; exact hj, hb⟩
  · rw [hj] at hp2
    obtain rfl := Option.some_inj.mp hp2
    exact ⟨f p, hq, hf p hb⟩

theorem mono_of_eq {ps ps' : List Player} (h : ps' = ps) : bankruptMono ps ps' := by
  rw [h]
  exact mono_refl ps

theorem invP_proj (r : Room) (ps : List Player) (bd : List Tile)
    (hp : r.players = ps) (hb : r.board = bd) (h : BankruptInvP ps bd) :
    BankruptInv r := by
  unfold BankruptInv
  rw [hp, hb]
  exact h

theorem invP_bankrupt_core (ps : List Player) (bd : List Tile) (pid oid : String)
    (hinv : BankruptInvP ps bd) (hoid : oid = pid) :
    BankruptInvP (updFirstById ps pid bankruptPlayer)
      (bd.map fun t => if t.ownerId = some oid then { t with ownerId := none } else t) := by
  intro q hq hqb
  rcases mem_updFirstById _ _ _ q hq with h | ⟨p, hp, hpid2, rfl⟩
  · obtain ⟨h1, h2, h3⟩ := hinv q h hqb
    refine ⟨h1, h2, ?_⟩
    intro t' ht'
    rw [List.mem_map] at ht'
    obtain ⟨t, ht, rfl⟩ := ht'
    split
    · simp
    · exact h3 t ht
  · refine ⟨rfl, rfl, ?_⟩
    intro t' ht'
    rw [List.mem_map] at ht'
    obtain ⟨t, ht, rfl⟩ := ht'
    have hqid : (bankruptPlayer p).id = oid := by
      show p.id = oid
      rw [hpid2, hoid]
    rw [hqid]
    split
    · simp
    · next hcond => exact hcond

theorem inv_handleBankruptcy (r : Room) (pid : String) (hinv : BankruptInv r) :
    BankruptInv (handleBankruptcy r pid).2 := by
  unfold handleBankruptcy
  simp only []
  split
  · exact hinv
  · split
    · exact hinv
    · next pl heq =>
        have hplid : pl.id = pid := by
          unfold getPlayerById at heq
          have hfs := List.find?_some heq
          exact of_decide_eq_true hfs
        split
        · exact hinv
        · split
          · exact hinv
          · show BankruptInv (checkWinner _)
            apply inv_checkWinner
            refine invP_proj _ (updFirstById r.players pid bankruptPlayer)
              (r.board.map fun t =>
                if t.ownerId = some pl.id then { t with ownerId := none } else t)
              ?_ ?_ ?_
            · show (ensureCurrentIsActive _).players = _
              rw [ensureCurrentIsActive_players]
              rfl
            · show (ensureCurrentIsActive _).board = _
              rw [ensureCurrentIsActive_board]
              rfl
            · exact invP_bankrupt_core r.players r.board pid pl.id hinv hplid

theorem mono_handleBankruptcy (r : Room) (pid : String) :
    bankruptMono r.players (handleBankruptcy r pid).2.players := by
  unfold handleBankruptcy
  simp only []
  split
  · exact mono_refl _
  · split
    · exact mono_refl _
    · next pl heq =>
        split
        · exact mono_refl _
        · split
          · exact mono_refl _
          · show bankruptMono r.players (checkWinner _).players
            rw [checkWinner_players]
            show bankruptMono r.players (ensureCurrentIsActive _).players
            rw [ensureCurrentIsActive_players]
            exact mono_updFirstById _ _ _ (fun p _ => rfl)

theorem handleBankruptcy_false (r : Room) (pid : String)
    (h : (handleBankruptcy r pid).1 = false) : (handleBankruptcy r pid).2 = r := by
  rcases handleBankruptcy_shape r pid with hc | ⟨r4, hc, _, _⟩
  · rw [hc]
  · rw [hc] at h
    cases h

theorem getIdx_updIdx_some {α : Type} (ps : List α) (i : Nat) (f : α → α) (a : α)
    (h : ps[i]? = some a) : (updIdx ps i f)[i]? = some (f a) := by
  rw [getIdx_updIdx_self, h]
  rfl

theorem inv_rent_update (r1 : Room) (i : Nat) (oid : String) (rent : Int)
    (tile : Tile) (hinv : BankruptInv r1) (ht : tile ∈ r1.board)
    (hown : tile.ownerId = some oid)
    (p1 : Player) (hp1 : r1.players[i]? = some p1) (hb1 : p1.isBankrupt = false) :
    BankruptInvP
      (updFirstById
        (updIdx r1.players i fun p => { p with balance := p.balance - rent }) oid
        fun p => { p with balance := p.balance + rent })
      r1.board := by
  apply invP_updFirstById_nonbankrupt
  · exact invP_updIdx_nonbankrupt _ _ _ _ p1 hinv hp1 hb1 hb1
  · intro p hp hpid
    rcases mem_updIdx _ _ _ p hp with hmem | ⟨q, hq, rfl⟩
    · cases hpb : p.isBankrupt
      · rfl
      · exfalso
        obtain ⟨_, _, h3⟩ := hinv p hmem hpb
        exact h3 tile ht (by rw [hown]; exact congrArg some hpid.symm)
    · show q.isBankrupt = false
      cases hpb : q.isBankrupt
      · rfl
      · exfalso
        obtain ⟨_, _, h3⟩ := hinv q (mem_of_getIdx _ _ _ hq) hpb
        exact h3 tile ht (by rw [hown]; exact congrArg some hpid.symm)
  · intro p
    rfl

theorem inv_resolveLanding (r : Room) (i : Nat) (ds : Int) (fc : Bool)
    (res : StepResult) (r' : Room) (p0 : Player)
    (h : resolveLanding r i ds fc = some (res, r'))
    (hinv : BankruptInv r) (hp0 : r.players[i]? = some p0)
    (hb0 : p0.isBankrupt = false) :
    BankruptInv r' ∧ bankruptMono r.players r'.players := by
  unfold resolveLanding at h
  split at h
  · cases h
  · next p0' heq0 =>
      rw [hp0] at heq0
      obtain rfl := Option.some_inj.mp heq0
      split at h
      · cases h
      · next tile heq2 =>
          have htile : tile ∈ r.board := mem_of_getIdx _ _ _ heq2
          split at h
          · -- go_to_jail
            simp only [Option.some.injEq, Prod.mk.injEq] at h
            rw [← h.2]
            constructor
            · apply inv_checkWinner
              apply inv_advance
              exact invP_proj _ (updIdx r.players i _) r.board rfl rfl
                (invP_updIdx_preserve _ _ _ _ hinv (fun p => ⟨rfl, rfl, rfl, rfl⟩))
            · rw [checkWinner_players, advanceTurn_players]
              exact mono_updIdx _ _ _ (fun p hb => hb)
          · simp only [] at h
            split at h
            · -- taxStep produced Sum.inl out
              next out heq =>
                split at heq
                · split at heq
                  · next hres =>
                      simp only [Sum.inl.injEq] at heq
                      simp only [Option.some.injEq] at h
                      rw [← heq] at h
                      simp only [Prod.mk.injEq] at h
                      rw [← h.2]
                      constructor
                      · apply inv_advance
                        apply inv_handleBankruptcy
                        exact invP_proj _ (updIdx r.players i _) r.board rfl rfl
                          (invP_updIdx_nonbankrupt _ _ _ _ p0 hinv hp0 hb0 hb0)
                      · rw [advanceTurn_players]
                        refine mono_trans ?_ (mono_handleBankruptcy _ _)
                        exact mono_updIdx _ _ _ (fun p hb => hb)
                  · cases heq
                · cases heq
            · -- taxStep gave Sum.inr r1
              next r1 heq =>
                have hstep1 : BankruptInv r1 ∧ bankruptMono r.players r1.players
                    ∧ r1.board = r.board
                    ∧ ∃ p1, r1.players[i]? = some p1 ∧ p1.isBankrupt = false := by
                  split at heq
                  · -- tax branch, bankruptcy did not fire
                    split at heq
                    · cases heq
                    · next hres =>
                        rw [Bool.not_eq_true] at hres
                        simp only [Sum.inr.injEq] at heq
                        rw [handleBankruptcy_false _ _ hres] at heq
                        subst heq
                        refine ⟨?_, ?_, rfl, ?_⟩
                        · exact invP_proj _ (updIdx r.players i _) r.board rfl rfl
                            (invP_updIdx_nonbankrupt _ _ _ _ p0 hinv hp0 hb0 hb0)
                        · exact mono_updIdx _ _ _ (fun p hb => hb)
                        · exact ⟨_, getIdx_updIdx_some _ _ _ _ hp0, hb0⟩
                  · -- not a tax tile
                    simp only [Sum.inr.injEq] at heq
                    subst heq
                    exact ⟨hinv, mono_refl _, rfl, p0, hp0, hb0⟩
                obtain ⟨hinv1, hmono1, hbeq, p1, hp1, hb1⟩ := hstep1
                have htile1 : tile ∈ r1.board := by
                  rw [hbeq]
                  exact htile
                split at h
                · -- rentStep produced Sum.inl out
                  next out heq3 =>
                    split at heq3
                    · next oid heqo =>
                        split at heq3
                        · split at heq3
                          · split at heq3
                            · split at heq3
                              · next hres =>
                                  simp only [Sum.inl.injEq] at heq3
                                  simp only [Option.some.injEq] at h
                                  rw [← heq3] at h
                                  simp only [Prod.mk.injEq] at h
                                  rw [← h.2]
                                  constructor
                                  · apply inv_advance
                                    apply inv_handleBankruptcy
                                    exact invP_proj _ _ r1.board rfl rfl
                                      (inv_rent_update r1 i oid _ tile hinv1 htile1
                                        heqo p1 hp1 hb1)
                                  · rw [advanceTurn_players]
                                    refine mono_trans hmono1 ?_
                                    refine mono_trans ?_ (mono_handleBankruptcy _ _)
                                    refine mono_trans ?_ (mono_updFirstById _ _ _ ?_)
                                    · exact mono_updIdx _ _ _ (fun p hb => hb)
                                    · exact fun p hb => hb
                              · cases heq3
                            · cases heq3
                          · cases heq3
                        · cases heq3
                    · cases heq3
                · -- rentStep gave Sum.inr r2
                  next r2 heq3 =>
                    have hstep2 : BankruptInv r2 ∧ bankruptMono r.players r2.players := by
                      split at heq3
                      · next oid heqo =>
                          split at heq3
                          · split at heq3
                            · split at heq3
                              · split at heq3
                                · cases heq3
                                · next hres =>
                                    rw [Bool.not_eq_true] at hres
                                    simp only [Sum.inr.injEq] at heq3
                                    rw [handleBankruptcy_false _ _ hres] at heq3
                                    constructor
                                    · rw [← heq3]
                                      exact invP_proj _ _ r1.board rfl rfl
                                        (inv_rent_update r1 i oid _ tile hinv1 htile1
                                          heqo p1 hp1 hb1)
                                    · rw [← heq3]
                                      refine mono_trans hmono1 ?_
                                      refine mono_trans ?_ (mono_updFirstById _ _ _ ?_)
                                      · exact mono_updIdx _ _ _ (fun p hb => hb)
                                      · exact fun p hb => hb
                              · simp only [Sum.inr.injEq] at heq3
                                rw [← heq3]
                                exact ⟨hinv1, hmono1⟩
                            · simp only [Sum.inr.injEq] at heq3
                              rw [← heq3]
                              exact ⟨hinv1, hmono1⟩
                          · simp only [Sum.inr.injEq] at heq3
                            rw [← heq3]
                            exact ⟨hinv1, hmono1⟩
                      · simp only [Sum.inr.injEq] at heq3
                        rw [← heq3]
                        exact ⟨hinv1, hmono1⟩
                    obtain ⟨hinv2, hmono2⟩ := hstep2
                    split at h
                    · -- card tile: draw a card
                      split at h
                      · -- a card was drawn
                        simp only [Option.some.injEq, Prod.mk.injEq] at h
                        rw [← h.2]
                        constructor
                        · exact invP_proj _ r2.players r2.board
                            (drawCard_players _ _) (drawCard_board _ _) hinv2
                        · rw [drawCard_players]
                          exact hmono2
                      · -- empty deck: fall through to the landing tail
                        simp only [Option.some.injEq] at h
                        have h2 : _ = r' := congrArg Prod.snd h
                        rw [← h2]
                        constructor
                        · exact invP_proj _ r2.players r2.board
                            (by rw [landingTail_players, drawCard_players])
                            (by rw [landingTail_board, drawCard_board]) hinv2
                        · rw [landingTail_players, drawCard_players]
                          exact hmono2
                    · -- plain landing tail
                      simp only [Option.some.injEq] at h
                      have h2 : _ = r' := congrArg Prod.snd h
                      rw [← h2]
                      constructor
                      · exact invP_proj _ r2.players r2.board
                          (landingTail_players _ _ _) (landingTail_board _ _ _) hinv2
                      · rw [landingTail_players]
                        exact hmono2

theorem inv_applyCard (r : Room) (i : Nat) (card : Card) (ds : Int)
    (res : StepResult) (r' : Room) (p0 : Player)
    (h : applyCardEffectAfterAck r i card ds = some (res, r'))
    (hinv : BankruptInv r) (hp0 : r.players[i]? = some p0)
    (hb0 : p0.isBankrupt = false) :
    BankruptInv r' ∧ bankruptMono r.players r'.players := by
  unfold applyCardEffectAfterAck at h
  split at h
  · -- no effect: advance
    simp only [Option.some.injEq, Prod.mk.injEq] at h
    rw [← h.2]
    constructor
    · apply inv_advance
      exact invP_proj _ r.players r.board rfl rfl hinv
    · rw [advanceTurn_players]
      exact mono_refl _
  · -- money effect
    split at h
    · cases h
    · next p0' heqp =>
        rw [hp0] at heqp
        obtain rfl := Option.some_inj.mp heqp
        simp only [] at h
        split at h
        · -- the credit (or debit) bankrupted the player
          simp only [Option.some.injEq, Prod.mk.injEq] at h
          rw [← h.2]
          constructor
          · apply inv_checkWinner
            apply inv_advance
            exact invP_proj _ _ _ rfl rfl
              (inv_handleBankruptcy _ _
                (invP_proj _ (updIdx r.players i _) r.board rfl rfl
                  (invP_updIdx_nonbankrupt _ _ _ _ p0 hinv hp0 hb0 hb0)))
          · rw [checkWinner_players, advanceTurn_players]
            refine mono_trans ?_ (mono_handleBankruptcy _ _)
            exact mono_updIdx _ _ _ (fun p hb => hb)
        · simp only [Option.some.injEq, Prod.mk.injEq] at h
          rw [← h.2]
          constructor
          · apply inv_advance
            exact invP_proj _ _ _ rfl rfl
              (inv_handleBankruptcy _ _
                (invP_proj _ (updIdx r.players i _) r.board rfl rfl
                  (invP_updIdx_nonbankrupt _ _ _ _ p0 hinv hp0 hb0 hb0)))
          · rw [advanceTurn_players]
            refine mono_trans ?_ (mono_handleBankruptcy _ _)
            exact mono_updIdx _ _ _ (fun p hb => hb)
  · -- go-to-jail card
    simp only [Option.some.injEq, Prod.mk.injEq] at h
    rw [← h.2]
    constructor
    · apply inv_checkWinner
      apply inv_advance
      exact invP_proj _ (updIdx r.players i _) r.board rfl rfl
        (invP_updIdx_preserve _ _ _ _ hinv (fun p => ⟨rfl, rfl, rfl, rfl⟩))
    · rw [checkWinner_players, advanceTurn_players]
      exact mono_updIdx _ _ _ (fun p hb => hb)
  · -- move-steps card
    split at h
    · cases h
    · simp only [] at h
      split at h
      · cases h
      · split at h
        · -- zero steps: land in place
          exact inv_resolveLanding r i ds true res r' p0 h hinv hp0 hb0
        · obtain ⟨hi, hm⟩ := inv_resolveLanding _ i ds true res r' _ h
            (invP_proj _ (updIdx r.players i _) r.board rfl rfl
              (invP_updIdx_preserve _ _ _ _ hinv (fun p => ⟨rfl, rfl, rfl, rfl⟩)))
            (getIdx_updIdx_some _ _ _ _ hp0) hb0
          refine ⟨hi, mono_trans ?_ hm⟩
          exact mono_updIdx _ _ _ (fun p hb => hb)
  · -- move-to card
    split at h
    · cases h
    · next p0' heqp =>
        rw [hp0] at heqp
        obtain rfl := Option.some_inj.mp heqp
        simp only [] at h
        split at h
        · cases h
        · split at h
          · -- passed the start tile: collect 200, then move and land
            obtain ⟨hi, hm⟩ := inv_resolveLanding _ i ds true res r' _ h
              (invP_proj _ (updIdx (updIdx r.players i _) i _) r.board rfl rfl
                (invP_updIdx_preserve _ _ _ _
                  (invP_updIdx_nonbankrupt _ _ _ _ p0 hinv hp0 hb0 hb0)
                  (fun p => ⟨rfl, rfl, rfl, rfl⟩)))
              (getIdx_updIdx_some _ _ _ _ (getIdx_updIdx_some _ _ _ _ hp0)) hb0
            refine ⟨hi, mono_trans ?_ hm⟩
            refine mono_trans ?_ (mono_updIdx _ _ _ ?_)
            · exact mono_updIdx _ _ _ (fun p hb => hb)
            · exact fun p hb => hb
          · -- no lap bonus: move and land
            obtain ⟨hi, hm⟩ := inv_resolveLanding _ i ds true res r' _ h
              (invP_proj _ (updIdx r.players i _) r.board rfl rfl
                (invP_updIdx_preserve _ _ _ _ hinv (fun p => ⟨rfl, rfl, rfl, rfl⟩)))
              (getIdx_updIdx_some _ _ _ _ hp0) hb0
            refine ⟨hi, mono_trans ?_ hm⟩
            exact mono_updIdx _ _ _ (fun p hb => hb)

theorem invP_reset (ps : List Player) (bd : List Tile) :
    BankruptInvP (ps.map resetPlayer) bd := by
  intro q hq hqb
  rw [List.mem_map] at hq
  obtain ⟨p, _, rfl⟩ := hq
  simp [resetPlayer] at hqb

theorem inv_setReady (r : Room) (sid : String) (b : Bool) (hinv : BankruptInv r) :
    BankruptInv (setReady r sid b).2
    ∧ bankruptMono r.players (setReady r sid b).2.players := by
  unfold setReady
  split
  · exact ⟨hinv, mono_refl _⟩
  · split
    · exact ⟨hinv, mono_refl _⟩
    · exact ⟨invP_proj _ r.players r.board rfl rfl hinv, mono_refl _⟩

theorem inv_startGame (r : Room) (sid : String) (cd cm : List Card)
    (hinv : BankruptInv r) : BankruptInv (startGame r sid cd cm).2 := by
  unfold startGame
  simp only []
  split
  · exact hinv
  · split
    · exact hinv
    · split
      · exact hinv
      · apply inv_ensure
        exact invP_proj _ (r.players.map resetPlayer) createRoomBoard rfl rfl
          (invP_reset _ _)

theorem inv_restartGame (r : Room) (sid : String) (cd cm : List Card)
    (hinv : BankruptInv r) : BankruptInv (restartGame r sid cd cm).2 := by
  unfold restartGame
  split
  · exact hinv
  · split
    · exact hinv
    · show BankruptInv (resetGame r cd cm)
      unfold resetGame
      apply inv_ensure
      exact invP_proj _ (r.players.map resetPlayer) createRoomBoard rfl rfl
        (invP_reset _ _)

theorem inv_createRoom (sid nickname : String) (cd cm : List Card) :
    BankruptInv (createRoom sid nickname cd cm) := by
  intro q hq hqb
  cases hq with
  | head => simp [createPlayer] at hqb
  | tail _ h => cases h

theorem inv_skipBuy (r : Room) (sid : String) (hinv : BankruptInv r) :
    BankruptInv (skipBuy r sid).2
    ∧ bankruptMono r.players (skipBuy r sid).2.players := by
  have hinv1 := inv_ensure r hinv
  have hmono1 : bankruptMono r.players (ensureCurrentIsActive r).players :=
    mono_of_eq (ensureCurrentIsActive_players r)
  unfold skipBuy
  simp only []
  split
  · exact ⟨hinv, mono_refl _⟩
  · split
    · exact ⟨hinv, mono_refl _⟩
    · split
      · exact ⟨hinv1, hmono1⟩
      · next cp heqc =>
          split
          · exact ⟨hinv1, hmono1⟩
          · split
            · exact ⟨hinv1, hmono1⟩
            · split
              · exact ⟨hinv1, hmono1⟩
              · split
                · split
                  · exact ⟨hinv1, hmono1⟩
                  · constructor
                    · apply inv_advance
                      exact invP_proj _ (ensureCurrentIsActive r).players
                        (ensureCurrentIsActive r).board rfl rfl hinv1
                    · rw [advanceTurn_players]
                      exact hmono1
                · exact ⟨hinv1, hmono1⟩

theorem inv_jailChoice (r : Room) (sid : String) (pay : Bool) (hinv : BankruptInv r) :
    BankruptInv (jailChoice r sid pay).2
    ∧ bankruptMono r.players (jailChoice r sid pay).2.players := by
  have hinv1 := inv_ensure r hinv
  have hmono1 : bankruptMono r.players (ensureCurrentIsActive r).players :=
    mono_of_eq (ensureCurrentIsActive_players r)
  unfold jailChoice
  simp only []
  split
  · exact ⟨hinv, mono_refl _⟩
  · split
    · exact ⟨hinv, mono_refl _⟩
    · split
      · exact ⟨hinv1, hmono1⟩
      · next cp heqc =>
          split
          · exact ⟨hinv1, hmono1⟩
          · split
            · exact ⟨hinv1, hmono1⟩
            · next hcb =>
                rw [Bool.not_eq_true] at hcb
                split
                · exact ⟨hinv1, hmono1⟩
                · split
                  · split
                    · exact ⟨hinv1, hmono1⟩
                    · split
                      · -- pay the fine
                        split <;> split
                        · -- default fine; it bankrupted the payer
                          constructor
                          · apply inv_checkWinner
                            apply inv_advance
                            apply inv_handleBankruptcy
                            exact invP_proj _
                              (updIdx (ensureCurrentIsActive r).players
                                (ensureCurrentIsActive r).currentPlayerIndex _)
                              (ensureCurrentIsActive r).board rfl rfl
                              (invP_updIdx_nonbankrupt _ _ _ _ cp hinv1 heqc hcb hcb)
                          · rw [checkWinner_players, advanceTurn_players]
                            refine mono_trans hmono1 ?_
                            refine mono_trans ?_ (mono_handleBankruptcy _ _)
                            exact mono_updIdx _ _ _ (fun p hb => hb)
                        · -- default fine; solvent payer stays current
                          constructor
                          · apply inv_handleBankruptcy
                            exact invP_proj _
                              (updIdx (ensureCurrentIsActive r).players
                                (ensureCurrentIsActive r).currentPlayerIndex _)
                              (ensureCurrentIsActive r).board rfl rfl
                              (invP_updIdx_nonbankrupt _ _ _ _ cp hinv1 heqc hcb hcb)
                          · refine mono_trans hmono1 ?_
                            refine mono_trans ?_ (mono_handleBankruptcy _ _)
                            exact mono_updIdx _ _ _ (fun p hb => hb)
                        · -- explicit fine; it bankrupted the payer
                          constructor
                          · apply inv_checkWinner
                            apply inv_advance
                            apply inv_handleBankruptcy
                            exact invP_proj _
                              (updIdx (ensureCurrentIsActive r).players
                                (ensureCurrentIsActive r).currentPlayerIndex _)
                              (ensureCurrentIsActive r).board rfl rfl
                              (invP_updIdx_nonbankrupt _ _ _ _ cp hinv1 heqc hcb hcb)
                          · rw [checkWinner_players, advanceTurn_players]
                            refine mono_trans hmono1 ?_
                            refine mono_trans ?_ (mono_handleBankruptcy _ _)
                            exact mono_updIdx _ _ _ (fun p hb => hb)
                        · -- explicit fine; solvent payer stays current
                          constructor
                          · apply inv_handleBankruptcy
                            exact invP_proj _
                              (updIdx (ensureCurrentIsActive r).players
                                (ensureCurrentIsActive r).currentPlayerIndex _)
                              (ensureCurrentIsActive r).board rfl rfl
                              (invP_updIdx_nonbankrupt _ _ _ _ cp hinv1 heqc hcb hcb)
                          · refine mono_trans hmono1 ?_
                            refine mono_trans ?_ (mono_handleBankruptcy _ _)
                            exact mono_updIdx _ _ _ (fun p hb => hb)
                      · -- wait out the sentence
                        constructor
                        · apply inv_advance
                          exact invP_proj _
                            (updIdx (ensureCurrentIsActive r).players
                              (ensureCurrentIsActive r).currentPlayerIndex _)
                            (ensureCurrentIsActive r).board rfl rfl
                            (invP_updIdx_preserve _ _ _ _ hinv1
                              (fun p => ⟨rfl, rfl, rfl, rfl⟩))
                        · rw [advanceTurn_players]
                          refine mono_trans hmono1 ?_
                          exact mono_updIdx _ _ _ (fun p hb => hb)
                  · exact ⟨hinv1, hmono1⟩

theorem inv_cardAck (r : Room) (sid : String) (resp : Resp) (r' : Room)
    (hinv : BankruptInv r) (h : cardAck r sid = some (resp, r')) :
    BankruptInv r' ∧ bankruptMono r.players r'.players := by
  have hinv1 := inv_ensure r hinv
  have hmono1 : bankruptMono r.players (ensureCurrentIsActive r).players :=
    mono_of_eq (ensureCurrentIsActive_players r)
  unfold cardAck at h
  split at h
  · simp only [Option.some.injEq, Prod.mk.injEq] at h
    rw [← h.2]
    exact ⟨hinv, mono_refl _⟩
  · split at h
    · simp only [Option.some.injEq, Prod.mk.injEq] at h
      rw [← h.2]
      exact ⟨hinv, mono_refl _⟩
    · simp only [] at h
      split at h
      · simp only [Option.some.injEq, Prod.mk.injEq] at h
        rw [← h.2]
        exact ⟨hinv1, hmono1⟩
      · next cp heqc =>
          split at h
          · simp only [Option.some.injEq, Prod.mk.injEq] at h
            rw [← h.2]
            exact ⟨hinv1, hmono1⟩
          · next hcb0 =>
              split at h
              · simp only [Option.some.injEq, Prod.mk.injEq] at h
                rw [← h.2]
                exact ⟨hinv1, hmono1⟩
              · next hcb =>
                  rw [Bool.not_eq_true] at hcb
                  split at h
                  · simp only [Option.some.injEq, Prod.mk.injEq] at h
                    rw [← h.2]
                    exact ⟨hinv1, hmono1⟩
                  · split at h
                    · split at h
                      · simp only [Option.some.injEq, Prod.mk.injEq] at h
                        rw [← h.2]
                        exact ⟨hinv1, hmono1⟩
                      · split at h
                        · cases h
                        · next res0 r3 heq =>
                            obtain ⟨hi, hm⟩ := inv_applyCard _ _ _ _ res0 r3 _ heq
                              (invP_proj _ (ensureCurrentIsActive r).players
                                (ensureCurrentIsActive r).board rfl rfl hinv1)
                              heqc hcb
                            simp only [Option.some.injEq, Prod.mk.injEq] at h
                            rw [← h.2]
                            exact ⟨hi, mono_trans hmono1 hm⟩
                    · simp only [Option.some.injEq, Prod.mk.injEq] at h
                      rw [← h.2]
                      exact ⟨hinv1, hmono1⟩

theorem maybePromptJail_players (r : Room) (i : Nat) :
    (maybePromptJail r i).2.players = r.players := by
  unfold maybePromptJail
  split
  · rfl
  · split <;> rfl

theorem maybePromptJail_board (r : Room) (i : Nat) :
    (maybePromptJail r i).2.board = r.board := by
  unfold maybePromptJail
  split
  · rfl
  · split <;> rfl

theorem inv_rollMove (r : Room) (i d1 d2 : Nat) (resp : Resp) (r' : Room)
    (cp : Player) (h : rollMove r i d1 d2 = some (resp, r'))
    (hinv : BankruptInv r) (hp0 : r.players[i]? = some cp)
    (hb0 : cp.isBankrupt = false) :
    BankruptInv r' ∧ bankruptMono r.players r'.players := by
  unfold rollMove at h
  split at h
  · cases h
  · next cp' heqc =>
      rw [hp0] at heqc
      obtain rfl := Option.some_inj.mp heqc
      simp only [] at h
      split at h
      · cases h
      · split at h
        · cases h
        · next res0 r3 heq =>
            simp only [Option.some.injEq, Prod.mk.injEq] at h
            rw [← h.2]
            split at heq
            · -- wrapped past START: collect 200, then move
              obtain ⟨hi, hm⟩ := inv_resolveLanding _ i _ false res0 r3 _ heq
                (invP_proj _ (updIdx (updIdx r.players i _) i _) r.board rfl rfl
                  (invP_updIdx_preserve _ _ _ _
                    (invP_updIdx_nonbankrupt _ _ _ _ cp hinv hp0 hb0 hb0)
                    (fun p => ⟨rfl, rfl, rfl, rfl⟩)))
                (getIdx_updIdx_some _ _ _ _ (getIdx_updIdx_some _ _ _ _ hp0)) hb0
              refine ⟨hi, mono_trans ?_ hm⟩
              refine mono_trans ?_ (mono_updIdx _ _ _ ?_)
              · exact mono_updIdx _ _ _ (fun p hb => hb)
              · exact fun p hb => hb
            · -- no wrap: plain move
              obtain ⟨hi, hm⟩ := inv_resolveLanding _ i _ false res0 r3 _ heq
                (invP_proj _ (updIdx r.players i _) r.board rfl rfl
                  (invP_updIdx_preserve _ _ _ _ hinv (fun p => ⟨rfl, rfl, rfl, rfl⟩)))
                (getIdx_updIdx_some _ _ _ _ hp0) hb0
              refine ⟨hi, mono_trans ?_ hm⟩
              exact mono_updIdx _ _ _ (fun p hb => hb)

theorem inv_rollDice (r : Room) (sid : String) (d1 d2 : Nat) (resp : Resp)
    (r' : Room) (hinv : BankruptInv r) (h : rollDice r sid d1 d2 = some (resp, r')) :
    BankruptInv r' ∧ bankruptMono r.players r'.players := by
  have hinv1 := inv_ensure r hinv
  have hmono1 : bankruptMono r.players (ensureCurrentIsActive r).players :=
    mono_of_eq (ensureCurrentIsActive_players r)
  unfold rollDice at h
  split at h
  · simp only [Option.some.injEq, Prod.mk.injEq] at h
    rw [← h.2]
    exact ⟨hinv, mono_refl _⟩
  · split at h
    · simp only [Option.some.injEq, Prod.mk.injEq] at h
      rw [← h.2]
      exact ⟨hinv, mono_refl _⟩
    · simp only [] at h
      split at h
      · simp only [Option.some.injEq, Prod.mk.injEq] at h
        rw [← h.2]
        exact ⟨hinv1, hmono1⟩
      · next cp heqc =>
          split at h
          · simp only [Option.some.injEq, Prod.mk.injEq] at h
            rw [← h.2]
            exact ⟨hinv1, hmono1⟩
          · next hcb =>
              rw [Bool.not_eq_true] at hcb
              split at h
              · simp only [Option.some.injEq, Prod.mk.injEq] at h
                rw [← h.2]
                exact ⟨hinv1, hmono1⟩
              · split at h
                · simp only [Option.some.injEq, Prod.mk.injEq] at h
                  rw [← h.2]
                  exact ⟨hinv1, hmono1⟩
                · split at h
                  · simp only [Option.some.injEq, Prod.mk.injEq] at h
                    rw [← h.2]
                    exact ⟨hinv1, hmono1⟩
                  · split at h
                    · -- jail gate
                      split at h
                      · -- prompted the jail choice
                        simp only [Option.some.injEq, Prod.mk.injEq] at h
                        rw [← h.2]
                        constructor
                        · exact invP_proj _ (ensureCurrentIsActive r).players
                            (ensureCurrentIsActive r).board
                            (maybePromptJail_players _ _) (maybePromptJail_board _ _)
                            hinv1
                        · rw [maybePromptJail_players]
                          exact hmono1
                      · -- prompt did not fire: roll from the prompt room
                        obtain ⟨hi, hm⟩ := inv_rollMove _ _ d1 d2 resp r' cp h
                          (invP_proj _ (ensureCurrentIsActive r).players
                            (ensureCurrentIsActive r).board
                            (maybePromptJail_players _ _) (maybePromptJail_board _ _)
                            hinv1)
                          (by rw [maybePromptJail_players]; exact heqc) hcb
                        refine ⟨hi, mono_trans hmono1 (mono_trans ?_ hm)⟩
                        exact mono_of_eq (maybePromptJail_players _ _)
                    · -- normal roll
                      obtain ⟨hi, hm⟩ := inv_rollMove _ _ d1 d2 resp r' cp h
                        hinv1 heqc hcb
                      exact ⟨hi, mono_trans hmono1 hm⟩

theorem nodup_id_unique (ps : List Player) (hnd : (ps.map Player.id).Nodup)
    (p q : Player) (hp : p ∈ ps) (hq : q ∈ ps) (hid : p.id = q.id) : p = q :=
  List.inj_on_of_nodup_map hnd hp hq hid

theorem invP_sub (ps ps' : List Player) (bd : List Tile)
    (hinv : BankruptInvP ps bd) (hsub : ∀ p ∈ ps', p ∈ ps) : BankruptInvP ps' bd :=
  fun p hp hpb => hinv p (hsub p hp) hpb

theorem mono_map (ps : List Player) (f : Player → Player)
    (hf : ∀ p : Player, p.isBankrupt = true → (f p).isBankrupt = true) :
    bankruptMono ps (ps.map f) := by
  intro i p hi hb
  refine ⟨f p, ?_, hf p hb⟩
  rw [List.getElem?_map, hi]
  rfl

theorem mono_append (ps qs : List Player) : bankruptMono ps (ps ++ qs) := by
  intro i p hi hb
  obtain ⟨hlt, -⟩ := List.getElem?_eq_some.mp hi
  refine ⟨p, ?_, hb⟩
  rw [List.getElem?_append_left hlt]
  exact hi

theorem invP_append_nonbankrupt (ps : List Player) (bd : List Tile) (q : Player)
    (hinv : BankruptInvP ps bd) (hq : q.isBankrupt = false) :
    BankruptInvP (ps ++ [q]) bd := by
  intro p hp hpb
  rw [List.mem_append] at hp
  rcases hp with hp | hp
  · exact hinv p hp hpb
  · rw [List.mem_singleton] at hp
    subst hp
    rw [hq] at hpb
    cases hpb

theorem inv_buyTile (r : Room) (sid : String) (hinv : BankruptInv r)
    (hnd : idsNodup r) :
    BankruptInv (buyTile r sid).2
    ∧ bankruptMono r.players (buyTile r sid).2.players := by
  have hinv1 := inv_ensure r hinv
  have hmono1 : bankruptMono r.players (ensureCurrentIsActive r).players :=
    mono_of_eq (ensureCurrentIsActive_players r)
  have hnd1 : ((ensureCurrentIsActive r).players.map Player.id).Nodup := by
    rw [ensureCurrentIsActive_players]
    exact hnd
  unfold buyTile
  simp only []
  split
  · exact ⟨hinv, mono_refl _⟩
  · split
    · exact ⟨hinv, mono_refl _⟩
    · split
      · exact ⟨hinv1, hmono1⟩
      · next cp heqc =>
          split
          · exact ⟨hinv1, hmono1⟩
          · next hcb =>
              rw [Bool.not_eq_true] at hcb
              split
              · exact ⟨hinv1, hmono1⟩
              · split
                · exact ⟨hinv1, hmono1⟩
                · split
                  · split
                    · exact ⟨hinv1, hmono1⟩
                    · split
                      · exact ⟨hinv1, hmono1⟩
                      · next tile heqt =>
                          split
                          · exact ⟨hinv1, hmono1⟩
                          · split
                            · exact ⟨hinv1, hmono1⟩
                            · split
                              · exact ⟨hinv1, hmono1⟩
                              · split
                                · exact ⟨hinv1, hmono1⟩
                                · -- the purchase goes through
                                  have hno : ∀ p ∈ (ensureCurrentIsActive r).players,
                                      p.isBankrupt = true → p.id ≠ cp.id := by
                                    intro p hp hpb hpe
                                    have hpc : p = cp :=
                                      nodup_id_unique _ hnd1 p cp hp
                                        (mem_of_getIdx _ _ _ heqc) hpe
                                    rw [hpc, hcb] at hpb
                                    cases hpb
                                  constructor
                                  · apply inv_advance
                                    exact invP_proj _
                                      (updIdx (ensureCurrentIsActive r).players
                                        (ensureCurrentIsActive r).currentPlayerIndex _)
                                      (updIdx (ensureCurrentIsActive r).board
                                        cp.position _) rfl rfl
                                      (invP_updIdx_nonbankrupt _ _ _ _ cp
                                        (invP_board_setOwner _ _ _ _ hinv1 hno)
                                        heqc hcb hcb)
                                  · rw [advanceTurn_players]
                                    refine mono_trans hmono1 ?_
                                    exact mono_updIdx _ _ _ (fun p hb => hb)
                  · exact ⟨hinv1, hmono1⟩

theorem invP_rebind_core (ps : List Player) (bd : List Tile) (o n : String)
    (hinv : BankruptInvP ps bd)
    (hfp : ∀ p ∈ ps, p.id ≠ n) (hft : ∀ t ∈ bd, t.ownerId ≠ some n) :
    BankruptInvP
      (ps.map fun p => if p.id = o then { p with id := n } else p)
      (bd.map fun t =>
        if t.ownerId = some o then { t with ownerId := some n } else t) := by
  intro q hq hqb
  rw [List.mem_map] at hq
  obtain ⟨p, hp, rfl⟩ := hq
  by_cases hpo : p.id = o
  · rw [if_pos hpo] at hqb ⊢
    obtain ⟨h1, h2, h3⟩ := hinv p hp hqb
    refine ⟨h1, h2, ?_⟩
    intro t' ht'
    rw [List.mem_map] at ht'
    obtain ⟨t, ht, rfl⟩ := ht'
    split
    · next hto =>
        exfalso
        exact h3 t ht (hto.trans (congrArg some hpo.symm))
    · exact hft t ht
  · rw [if_neg hpo] at hqb ⊢
    obtain ⟨h1, h2, h3⟩ := hinv p hp hqb
    refine ⟨h1, h2, ?_⟩
    intro t' ht'
    rw [List.mem_map] at ht'
    obtain ⟨t, ht, rfl⟩ := ht'
    split
    · intro hc
      exact hfp p hp (Option.some_inj.mp hc).symm
    · exact h3 t ht

theorem inv_rebind (r : Room) (o n : String) (hinv : BankruptInv r)
    (hfp : ∀ p ∈ r.players, p.id ≠ n) (hft : ∀ t ∈ r.board, t.ownerId ≠ some n) :
    BankruptInv (rebindPlayerId r o n) := by
  unfold rebindPlayerId
  split
  · exact hinv
  · exact invP_proj _ _ _ rfl rfl (invP_rebind_core r.players r.board o n hinv hfp hft)

theorem mono_rebind (r : Room) (o n : String) :
    bankruptMono r.players (rebindPlayerId r o n).players := by
  unfold rebindPlayerId
  split
  · exact mono_refl _
  · show bankruptMono r.players (r.players.map _)
    refine mono_map _ _ ?_
    intro p hb
    split
    · exact hb
    · exact hb

theorem inv_joinRoom (r : Room) (nickname sid : String) (hinv : BankruptInv r)
    (hfp : ∀ p ∈ r.players, p.id ≠ sid)
    (hft : ∀ t ∈ r.board, t.ownerId ≠ some sid) :
    BankruptInv (joinRoom r nickname sid).2
    ∧ bankruptMono r.players (joinRoom r nickname sid).2.players := by
  unfold joinRoom
  simp only []
  split
  · -- rejoin path (game already started)
    split
    · exact ⟨hinv, mono_refl _⟩
    · next ex heqx =>
        split
        · -- clear the disconnected flag on the rebound player
          constructor
          · exact invP_proj _ _ _ rfl rfl
              (invP_updIdx_preserve _ _ _ _
                (inv_rebind r ex.id sid hinv hfp hft)
                (fun p => ⟨rfl, rfl, rfl, rfl⟩))
          · refine mono_trans (mono_rebind r ex.id sid) ?_
            exact mono_updIdx _ _ _ (fun p hb => hb)
        · exact ⟨inv_rebind r ex.id sid hinv hfp hft, mono_rebind r ex.id sid⟩
  · -- lobby path
    split
    · exact ⟨hinv, mono_refl _⟩
    · split
      · exact ⟨hinv, mono_refl _⟩
      · split
        · exact ⟨hinv, mono_refl _⟩
        · constructor
          · exact invP_proj _ (r.players ++ [createPlayer sid nickname _]) r.board
              rfl rfl (invP_append_nonbankrupt _ _ _ hinv rfl)
          · exact mono_append _ _

theorem inv_disconnect (r : Room) (sid : String) (now : Nat) (r' : Room)
    (hinv : BankruptInv r) (h : disconnect r sid now = some r') :
    BankruptInv r'
    ∧ (r.status = Status.playing → bankruptMono r.players r'.players) := by
  unfold disconnect at h
  split at h
  · obtain rfl := Option.some_inj.mp h
    exact ⟨hinv, fun _ => mono_refl _⟩
  · next idx heqi =>
      split at h
      · -- waiting room: remove the player
        next hw =>
          simp only [] at h
          split at h
          · cases h
          · have hb2 : _ = r' := Option.some_inj.mp h
            rw [← hb2]
            constructor
            · split
              · split
                · exact invP_proj _ (r.players.eraseIdx idx) r.board rfl rfl
                    (invP_sub _ _ _ hinv (fun p hp => List.mem_of_mem_eraseIdx hp))
                · exact invP_proj _ (r.players.eraseIdx idx) r.board rfl rfl
                    (invP_sub _ _ _ hinv (fun p hp => List.mem_of_mem_eraseIdx hp))
              · exact invP_proj _ (r.players.eraseIdx idx) r.board rfl rfl
                  (invP_sub _ _ _ hinv (fun p hp => List.mem_of_mem_eraseIdx hp))
            · intro hpl
              rw [hpl] at hw
              cases hw
      · -- live game: mark disconnected, repair the turn
        have hb2 : _ = r' := Option.some_inj.mp h
        rw [← hb2]
        constructor
        · split
          · split
            · apply inv_advance
              exact invP_proj _ (updIdx r.players idx _) r.board rfl rfl
                (invP_updIdx_preserve _ _ _ _ hinv (fun p => ⟨rfl, rfl, rfl, rfl⟩))
            · apply inv_ensure
              exact invP_proj _ (updIdx r.players idx _) r.board rfl rfl
                (invP_updIdx_preserve _ _ _ _ hinv (fun p => ⟨rfl, rfl, rfl, rfl⟩))
          · apply inv_ensure
            exact invP_proj _ (updIdx r.players idx _) r.board rfl rfl
              (invP_updIdx_preserve _ _ _ _ hinv (fun p => ⟨rfl, rfl, rfl, rfl⟩))
        · intro _
          split
          · split
            · rw [advanceTurn_players]
              exact mono_updIdx _ _ _ (fun p hb => hb)
            · rw [ensureCurrentIsActive_players]
              exact mono_updIdx _ _ _ (fun p hb => hb)
          · rw [ensureCurrentIsActive_players]
            exact mono_updIdx _ _ _ (fun p hb => hb)

/-- C2: every intent handler preserves the bankruptcy invariant — a bankrupt
player has zero balance, an empty owned-tile list, and owns no board tile —
and, outside of a game start or restart (which reset the flag by design), a
player flagged bankrupt stays flagged.  The buy handler additionally assumes
pairwise-distinct player ids (socket ids are unique), and the join handler
assumes the joining socket id is fresh for the room. -/
theorem bankrupt_invariant_spec (r : Room) (hinv : BankruptInv r) :
    (∀ sid pay, BankruptInv (jailChoice r sid pay).2
        ∧ bankruptMono r.players (jailChoice r sid pay).2.players)
    ∧ (∀ sid resp r', cardAck r sid = some (resp, r') →
        BankruptInv r' ∧ bankruptMono r.players r'.players)
    ∧ (∀ sid d1 d2 resp r', rollDice r sid d1 d2 = some (resp, r') →
        BankruptInv r' ∧ bankruptMono r.players r'.players)
    ∧ (∀ sid, idsNodup r → BankruptInv (buyTile r sid).2
        ∧ bankruptMono r.players (buyTile r sid).2.players)
    ∧ (∀ sid, BankruptInv (skipBuy r sid).2
        ∧ bankruptMono r.players (skipBuy r sid).2.players)
    ∧ (∀ nickname sid, (∀ p ∈ r.players, p.id ≠ sid) →
        (∀ t ∈ r.board, t.ownerId ≠ some sid) →
        BankruptInv (joinRoom r nickname sid).2
        ∧ bankruptMono r.players (joinRoom r nickname sid).2.players)
    ∧ (∀ sid b, BankruptInv (setReady r sid b).2
        ∧ bankruptMono r.players (setReady r sid b).2.players)
    ∧ (∀ sid cd cm, BankruptInv (startGame r sid cd cm).2)
    ∧ (∀ sid cd cm, BankruptInv (restartGame r sid cd cm).2)
    ∧ (∀ sid now r', disconnect r sid now = some r' →
        BankruptInv r'
        ∧ (r.status = Status.playing → bankruptMono r.players r'.players))
    ∧ (∀ sid nickname cd cm, BankruptInv (createRoom sid nickname cd cm)) := by
  refine ⟨?_, ?_, ?_, ?_, ?_, ?_, ?_, ?_, ?_, ?_, ?_⟩
  · exact fun sid pay => inv_jailChoice r sid pay hinv
  · exact fun sid resp r' h => inv_cardAck r sid resp r' hinv h
  · exact fun sid d1 d2 resp r' h => inv_rollDice r sid d1 d2 resp r' hinv h
  · exact fun sid hnd => inv_buyTile r sid hinv hnd
  · exact fun sid => inv_skipBuy r sid hinv
  · exact fun nickname sid hfp hft => inv_joinRoom r nickname sid hinv hfp hft
  · exact fun sid b => inv_setReady r sid b hinv
  · exact fun sid cd cm => inv_startGame r sid cd cm hinv
  · exact fun sid cd cm => inv_restartGame r sid cd cm hinv
  · exact fun sid now r' h => inv_disconnect r sid now r' hinv h
  · exact fun sid nickname cd cm => inv_createRoom sid nickname cd cm

/-- Witness for C2: on the concrete room `wC2room` (which satisfies the
bankruptcy invariant) the jail-payment intent preserves the invariant and the
bankrupt flag of every player. -/
theorem bankrupt_invariant_spec_witness :
    BankruptInv wC2room
    ∧ (BankruptInv (jailChoice wC2room "A" true).2
        ∧ bankruptMono wC2room.players (jailChoice wC2room "A" true).2.players) :=
  ⟨by unfold BankruptInv BankruptInvP; decide,
   (bankrupt_invariant_spec wC2room
      (by unfold BankruptInv BankruptInvP; decide)).1 "A" true⟩
